import Mathlib

/-!
Shallow embedding of the RAMCloud `SegmentManager` (SegmentManager.cc) and
proofs about its segment-lifecycle operations.

The embedding translates the manager's mutable state into a record `SM` and
each method into a pure function on `SM`.  External collaborators are
modelled as follows:

* the seglet allocator is reduced to its observable `getFreeSegmentCount`
  counter, decremented when a `LogSegment` is constructed and incremented
  when one is destroyed (the manager only inspects this counter);
* the `ServerRpcPool` epoch counter becomes the `currentEpoch` field
  (`incrementCurrentEpoch` returns the post-increment value), and
  `getEarliestOutstandingEpoch` is an oracle passed as an explicit
  `earliestEpoch` argument to the operations that consult it;
* the replica manager's `allocateHead` / `allocateNonHead` / `close` /
  `sync` calls change no segment-manager state and are omitted;
* `writeHeader` appends a header entry into the new segment's buffer; entry
  buffers are not modelled, and the log digest composed by `writeDigest` is
  returned explicitly as the list of segment ids appended, in order.

Machine integers (`uint32_t`/`uint64_t`/`size_t`) are modelled as `Nat`;
where C++ unsigned wrap-around is reachable and observable
(`increaseSurvivorReserve`), the subtraction is written with an explicit
`% 2 ^ 32`.  The in-code `assert`s appear as hypotheses of the theorems
about the functions whose behaviour they guard.
-/

set_option maxHeartbeats 1000000

namespace RAMCloud

/-- The per-segment lifecycle states of the segment manager's state machine. -/
inductive SegState where
  | HEAD
  | CLEANING_INTO
  | CLEANABLE_PENDING_DIGEST
  | NEWLY_CLEANABLE
  | CLEANABLE
  | FREEABLE_PENDING_DIGEST_AND_REFERENCES
  | FREEABLE_PENDING_REFERENCES
  deriving DecidableEq, Repr

/-- The three allocation types accepted by `alloc` and `mayAlloc`. -/
inductive AllocationType where
  | ALLOC_HEAD
  | ALLOC_EMERGENCY_HEAD
  | ALLOC_SURVIVOR
  deriving DecidableEq, Repr

/-- One log segment, with the fields of `LogSegment` that the segment
manager reads or writes: monotonic `id`, table `slot`, the emergency-head
marker, the epoch recorded by `cleaningComplete`, the seglet count reported
by `getSegletsAllocated`, and the flag set by `disableAppends`. -/
structure LogSegment where
  id : Nat
  slot : Nat
  isEmergencyHead : Bool
  cleanedEpoch : Nat
  segletsAllocated : Nat
  appendsDisabled : Bool
  deriving DecidableEq, Repr

/-- The state of a `SegmentManager`: the two parallel slot arrays
(`segments` / `states`, `none` meaning an empty `Tub`), the free-slot pool,
the id-to-slot index, the `allSegments` list and one intrusive list per
state, the reserve caps and outstanding counts, the iterator counter, and
the modelled external counters (allocator free-segment count, RPC epoch). -/
structure SM where
  maxSegments : Nat
  numEmergencyHeads : Nat
  numEmergencyHeadsAlloced : Nat
  numSurvivorSegments : Nat
  numSurvivorSegmentsAlloced : Nat
  segments : Nat → Option LogSegment
  states : Nat → Option SegState
  freeSlots : List Nat
  nextSegmentId : Nat
  idToSlotMap : Nat → Option Nat
  allSegments : List Nat
  segmentsByState : SegState → List Nat
  logIteratorCount : Nat
  freeSegmentCount : Nat
  currentEpoch : Nat
  segletsPerSegment : Nat

/-- The seven states, for finite quantification in decidable predicates. -/
def allSegStates : List SegState :=
  [.HEAD, .CLEANING_INTO, .CLEANABLE_PENDING_DIGEST, .NEWLY_CLEANABLE,
   .CLEANABLE, .FREEABLE_PENDING_DIGEST_AND_REFERENCES,
   .FREEABLE_PENDING_REFERENCES]

/-- The id of the segment in a slot (`segments[slot]->id`; 0 if empty). -/
def idAt (sm : SM) (slot : Nat) : Nat :=
  match sm.segments slot with
  | some s => s.id
  | none => 0

/-- `getSegletsAllocated()` of the segment in a slot (0 if empty). -/
def segletsAt (sm : SM) (slot : Nat) : Nat :=
  match sm.segments slot with
  | some s => s.segletsAllocated
  | none => 0

/-- `isEmergencyHead` of the segment in a slot (false if empty). -/
def isEmergencyAt (sm : SM) (slot : Nat) : Bool :=
  match sm.segments slot with
  | some s => s.isEmergencyHead
  | none => false

/-- `SegmentManager::addToLists`: append the segment to `allSegments` and to
the list for its current state. -/
def addToLists (slot : Nat) (sm : SM) : SM :=
  match sm.states slot with
  | none => sm
  | some st =>
    { sm with
      allSegments := sm.allSegments ++ [slot]
      segmentsByState := fun t =>
        if t = st then sm.segmentsByState st ++ [slot]
        else sm.segmentsByState t }

/-- `SegmentManager::removeFromLists`: erase the segment from the list for
its current state and from `allSegments`. -/
def removeFromLists (slot : Nat) (sm : SM) : SM :=
  match sm.states slot with
  | none => sm
  | some st =>
    { sm with
      allSegments := sm.allSegments.erase slot
      segmentsByState := fun t =>
        if t = st then (sm.segmentsByState st).erase slot
        else sm.segmentsByState t }

/-- Write `*states[slot] = st` (the assignment inside `changeState`). -/
def setStateAt (slot : Nat) (st : SegState) (sm : SM) : SM :=
  { sm with states := fun j => if j = slot then some st else sm.states j }

/-- `SegmentManager::changeState`: remove from the old lists, assign the new
state, add to the new lists. -/
def changeState (slot : Nat) (newState : SegState) (sm : SM) : SM :=
  addToLists slot (setStateAt slot newState (removeFromLists slot sm))

/-- `SegmentManager::getHeadSegment`: the front of the `HEAD` list, absent
when that list is empty. -/
def getHeadSegment (sm : SM) : Option Nat :=
  (sm.segmentsByState .HEAD).head?

/-- `SegmentManager::mayAlloc`.  The C++ entry asserts
`numEmergencyHeadsAlloced <= numEmergencyHeads`,
`numSurvivorSegmentsAlloced <= numSurvivorSegments` and
`freeSegmentCount >= totalReserved`; under the first two the truncated `Nat`
subtractions below agree with the C++ unsigned ones. -/
def mayAlloc (sm : SM) (type : AllocationType) : Bool :=
  let emergencyHeadsReserved := sm.numEmergencyHeads - sm.numEmergencyHeadsAlloced
  let survivorSegmentsReserved := sm.numSurvivorSegments - sm.numSurvivorSegmentsAlloced
  let totalReserved := emergencyHeadsReserved + survivorSegmentsReserved
  match type with
  | .ALLOC_EMERGENCY_HEAD => true
  | .ALLOC_SURVIVOR => decide (survivorSegmentsReserved ≠ 0)
  | .ALLOC_HEAD => decide (totalReserved < sm.freeSegmentCount)

/-- `SegmentManager::free`: return the slot to the free-slot pool, erase the
id from the id-to-slot index, remove the segment from all lists, destroy the
state and segment (the destroyed segment returns its memory, so the
allocator's free count rises), and decrement the emergency-head counter
(emergency heads) or, when positive, the survivor counter (all others). -/
def free (slot : Nat) (sm : SM) : SM :=
  match sm.segments slot with
  | none => sm
  | some s =>
    let sm1 := removeFromLists slot sm
    { sm1 with
      freeSlots := sm1.freeSlots ++ [slot]
      idToSlotMap := fun i => if i = s.id then none else sm1.idToSlotMap i
      segments := fun j => if j = slot then none else sm1.segments j
      states := fun j => if j = slot then none else sm1.states j
      freeSegmentCount := sm1.freeSegmentCount + 1
      numEmergencyHeadsAlloced :=
        if s.isEmergencyHead then sm1.numEmergencyHeadsAlloced - 1
        else sm1.numEmergencyHeadsAlloced
      numSurvivorSegmentsAlloced :=
        if s.isEmergencyHead then sm1.numSurvivorSegmentsAlloced
        else if 0 < sm1.numSurvivorSegmentsAlloced then
          sm1.numSurvivorSegmentsAlloced - 1
        else sm1.numSurvivorSegmentsAlloced }

/-- One iteration of the `freeUnreferencedSegments` loop body: free the
visited segment when its `cleanedEpoch` precedes the earliest outstanding
epoch. -/
def scanStep (earliestEpoch slot : Nat) (sm : SM) : SM :=
  match sm.segments slot with
  | some s => if s.cleanedEpoch < earliestEpoch then free slot sm else sm
  | none => sm

/-- The loop of `freeUnreferencedSegments`, iterating over a snapshot of the
`FREEABLE_PENDING_REFERENCES` list (the C++ advances the iterator before
freeing, so freeing the visited element never perturbs the walk). -/
def scanFree (earliestEpoch : Nat) : List Nat → SM → SM
  | [], sm => sm
  | slot :: rest, sm => scanFree earliestEpoch rest (scanStep earliestEpoch slot sm)

/-- `SegmentManager::freeUnreferencedSegments`: free every segment in
`FREEABLE_PENDING_REFERENCES` whose `cleanedEpoch` precedes the earliest
outstanding RPC epoch reported by the oracle. -/
def freeUnreferencedSegments (sm : SM) (earliestEpoch : Nat) : SM :=
  if (sm.segmentsByState .FREEABLE_PENDING_REFERENCES).isEmpty then sm
  else scanFree earliestEpoch (sm.segmentsByState .FREEABLE_PENDING_REFERENCES) sm

/-- `SegmentManager::alloc`: run the reclamation scan, check admission, then
construct the new segment in the slot popped from the back of the free-slot
pool, record it in the id-to-slot index and the lists, and bump the relevant
outstanding counter.  Returns the new slot, or `none` when admission fails
(an empty free-slot pool is excluded by the C++ `assert(freeSlots.size() > 0)`
and likewise yields `none` here). -/
def alloc (sm : SM) (earliestEpoch : Nat) (type : AllocationType) : SM × Option Nat :=
  let sm1 := freeUnreferencedSegments sm earliestEpoch
  if mayAlloc sm1 type then
    match sm1.freeSlots.getLast? with
    | none => (sm1, none)
    | some slot =>
      let id := sm1.nextSegmentId
      let st : SegState := if type = .ALLOC_SURVIVOR then .CLEANING_INTO else .HEAD
      let seg : LogSegment :=
        { id := id
          slot := slot
          isEmergencyHead := decide (type = .ALLOC_EMERGENCY_HEAD)
          cleanedEpoch := 0
          segletsAllocated := sm1.segletsPerSegment
          appendsDisabled := false }
      let sm2 :=
        { sm1 with
          nextSegmentId := id + 1
          freeSlots := sm1.freeSlots.dropLast
          segments := fun j => if j = slot then some seg else sm1.segments j
          states := fun j => if j = slot then some st else sm1.states j
          idToSlotMap := fun i => if i = id then some slot else sm1.idToSlotMap i
          freeSegmentCount := sm1.freeSegmentCount - 1 }
      let sm3 := addToLists slot sm2
      let sm4 :=
        match type with
        | .ALLOC_SURVIVOR =>
          { sm3 with numSurvivorSegmentsAlloced := sm3.numSurvivorSegmentsAlloced + 1 }
        | .ALLOC_EMERGENCY_HEAD =>
          { sm3 with numEmergencyHeadsAlloced := sm3.numEmergencyHeadsAlloced + 1 }
        | .ALLOC_HEAD => sm3
      (sm4, some slot)
  else (sm1, none)

/-- The drain loops of `writeDigest`: `while (!list.empty())
changeState(list.front(), dst)`, iterated here over a snapshot of the source
list (each `changeState` removes exactly the visited front). -/
def drainGo (dst : SegState) : List Nat → SM → SM
  | [], sm => sm
  | slot :: rest, sm => drainGo dst rest (changeState slot dst sm)

/-- Drain every segment of state `src` into state `dst`. -/
def drainState (sm : SM) (src dst : SegState) : SM :=
  drainGo dst (sm.segmentsByState src) sm

/-- `SegmentManager::writeDigest`.  Returns the updated state and the list
of segment ids appended into the digest, in append order.  `prevHead` is the
argument `allocHead` passes: the previous head, or `none` when there was
none or it was an emergency head. -/
def writeDigest (sm : SM) (newHead : Nat) (prevHead : Option Nat) : SM × List Nat :=
  let sm1 :=
    if sm.logIteratorCount = 0 then
      drainState sm .CLEANABLE_PENDING_DIGEST .NEWLY_CLEANABLE
    else sm
  let digest :=
    (sm1.segmentsByState .CLEANABLE).map (idAt sm1) ++
    (sm1.segmentsByState .NEWLY_CLEANABLE).map (idAt sm1) ++
    (match prevHead with
     | some p => [idAt sm1 p]
     | none => []) ++
    [idAt sm1 newHead]
  if sm1.logIteratorCount = 0 then
    (drainState sm1 .FREEABLE_PENDING_DIGEST_AND_REFERENCES
       .FREEABLE_PENDING_REFERENCES,
     digest)
  else
    (sm1,
     digest ++
       (sm1.segmentsByState .FREEABLE_PENDING_DIGEST_AND_REFERENCES).map (idAt sm1))

/-- `disableAppends()` on the segment in a slot. -/
def disableAppendsAt (slot : Nat) (sm : SM) : SM :=
  { sm with
    segments := fun j =>
      if j = slot then (sm.segments j).map (fun s => { s with appendsDisabled := true })
      else sm.segments j }

/-- The tail of `allocHead` after a head segment has been obtained: write
the header (entry buffers are not modelled), write the digest — excluding
the previous head when it was an emergency head —, make an emergency head
immutable, let the replica manager open the new head and close and sync the
previous one (no manager state), then free an emergency previous head or
transition a normal one to `NEWLY_CLEANABLE`. -/
def allocHeadFinish (sm : SM) (prevHead : Option Nat) (newHead : Nat) :
    SM × Option (Nat × List Nat) :=
  let prevArg : Option Nat :=
    match prevHead with
    | some p => if isEmergencyAt sm p then none else some p
    | none => none
  let sd := writeDigest sm newHead prevArg
  let sm3 := if isEmergencyAt sd.1 newHead then disableAppendsAt newHead sd.1 else sd.1
  let sm4 :=
    match prevHead with
    | none => sm3
    | some p =>
      if isEmergencyAt sm3 p then free p sm3
      else changeState p .NEWLY_CLEANABLE sm3
  (sm4, some (newHead, sd.2))

/-- `SegmentManager::allocHead`.  Returns the updated state and, on success,
the new head's slot together with the log digest written into it; `none`
models the `NULL` out-of-memory return (not an error). -/
def allocHead (sm : SM) (earliestEpoch : Nat) (mustNotFail : Bool) :
    SM × Option (Nat × List Nat) :=
  let prevHead := getHeadSegment sm
  let ar := alloc sm earliestEpoch .ALLOC_HEAD
  match ar.2 with
  | some newHead => allocHeadFinish ar.1 prevHead newHead
  | none =>
    if mustNotFail ||
        !(ar.1.segmentsByState .FREEABLE_PENDING_DIGEST_AND_REFERENCES).isEmpty then
      let ar2 := alloc ar.1 earliestEpoch .ALLOC_EMERGENCY_HEAD
      match ar2.2 with
      | some newHead => allocHeadFinish ar2.1 prevHead newHead
      | none => (ar2.1, none)
    else (ar.1, none)

/-- `SegmentManager::allocSurvivor` (header write and non-head replica
allocation change no manager state). -/
def allocSurvivor (sm : SM) (earliestEpoch : Nat) : SM × Option Nat :=
  alloc sm earliestEpoch .ALLOC_SURVIVOR

/-- Write `s->cleanedEpoch = epoch` on the segment in a slot. -/
def setCleanedEpoch (slot : Nat) (epoch : Nat) (sm : SM) : SM :=
  { sm with
    segments := fun j =>
      if j = slot then (sm.segments j).map (fun s => { s with cleanedEpoch := epoch })
      else sm.segments j }

/-- First loop of `cleaningComplete`: drain `CLEANING_INTO` into
`CLEANABLE_PENDING_DIGEST`, accumulating `segletsUsed`. -/
def drainCleaningInto : List Nat → SM → Nat → SM × Nat
  | [], sm, acc => (sm, acc)
  | slot :: rest, sm, acc =>
    drainCleaningInto rest (changeState slot .CLEANABLE_PENDING_DIGEST sm)
      (acc + segletsAt sm slot)

/-- Second loop of `cleaningComplete`: stamp each cleaned segment with the
recorded epoch and move it to `FREEABLE_PENDING_DIGEST_AND_REFERENCES`,
accumulating `segletsFreed`. -/
def cleanLoop (epoch : Nat) : List Nat → SM → Nat → SM × Nat
  | [], sm, acc => (sm, acc)
  | slot :: rest, sm, acc =>
    cleanLoop epoch rest
      (changeState slot .FREEABLE_PENDING_DIGEST_AND_REFERENCES
        (setCleanedEpoch slot epoch sm))
      (acc + segletsAt sm slot)

/-- Result of `cleaningComplete`: the new state, the two seglet tallies, the
recorded epoch, and the condition of the closing
`assert(segletsUsed <= segletsFreed)`. -/
structure CleanResult where
  sm : SM
  segletsUsed : Nat
  segletsFreed : Nat
  epoch : Nat
  assertNetNonLoss : Bool

/-- `SegmentManager::cleaningComplete`.  `epoch` is
`incrementCurrentEpoch() - 1`, i.e. the pre-increment value of the global
RPC epoch counter. -/
def cleaningComplete (sm : SM) (clean : List Nat) : CleanResult :=
  let du := drainCleaningInto (sm.segmentsByState .CLEANING_INTO) sm 0
  let epoch := du.1.currentEpoch
  let sm2 := { du.1 with currentEpoch := du.1.currentEpoch + 1 }
  let cf := cleanLoop epoch clean sm2 0
  { sm := cf.1
    segletsUsed := du.2
    segletsFreed := cf.2
    epoch := epoch
    assertNetNonLoss := decide (du.2 ≤ cf.2) }

/-- `SegmentManager::cleanableSegments`: drain `NEWLY_CLEANABLE` into
`CLEANABLE`, returning the drained slots in list order. -/
def cleanableSegments (sm : SM) : SM × List Nat :=
  (drainState sm .NEWLY_CLEANABLE .CLEANABLE, sm.segmentsByState .NEWLY_CLEANABLE)

/-- `SegmentManager::logIteratorCreated`. -/
def logIteratorCreated (sm : SM) : SM :=
  { sm with logIteratorCount := sm.logIteratorCount + 1 }

/-- `SegmentManager::logIteratorDestroyed`. -/
def logIteratorDestroyed (sm : SM) : SM :=
  { sm with logIteratorCount := sm.logIteratorCount - 1 }

/-- `SegmentManager::increaseSurvivorReserve`.  The fields are `uint32_t`
and the bound check `numSegments > getFreeSegmentCount() - numEmergencyHeads`
is computed in wrapping unsigned arithmetic, written here with an explicit
`% 2 ^ 32` (exactly the C++ value for field values below `2 ^ 32`). -/
def increaseSurvivorReserve (sm : SM) (numSegments : Nat) : SM × Bool :=
  if numSegments < sm.numSurvivorSegments then (sm, false)
  else if (sm.freeSegmentCount + 2 ^ 32 - sm.numEmergencyHeads) % 2 ^ 32 <
      numSegments then (sm, false)
  else ({ sm with numSurvivorSegments := numSegments }, true)

/-- Soundness of one per-state list: no duplicate slots, and every member is
an occupied slot whose recorded state is the list's state. -/
def listOk (sm : SM) (st : SegState) : Prop :=
  (sm.segmentsByState st).Nodup ∧
  ∀ slot ∈ sm.segmentsByState st,
    (sm.segments slot).isSome = true ∧ sm.states slot = some st

instance (sm : SM) (st : SegState) : Decidable (listOk sm st) := by
  unfold listOk; infer_instance

/-- The structural invariants of the segment manager's bookkeeping that its
code maintains and relies on: sound per-state lists, a duplicate-free
`allSegments` list of occupied slots, and a duplicate-free free-slot pool of
unoccupied slots. -/
def Wf (sm : SM) : Prop :=
  (∀ st ∈ allSegStates, listOk sm st) ∧
  sm.allSegments.Nodup ∧
  (∀ slot ∈ sm.allSegments, (sm.segments slot).isSome = true) ∧
  sm.freeSlots.Nodup ∧
  (∀ slot ∈ sm.freeSlots, sm.segments slot = none ∧ sm.states slot = none)

instance (sm : SM) : Decidable (Wf sm) := by
  unfold Wf; infer_instance

/-- The ids a digest written by `allocHead` can draw on: the ids of the five
lists `writeDigest` or its caller reads, together with the fresh id
(`nextSegmentId`) of the new head. -/
def digestPool (sm : SM) : List Nat :=
  (sm.segmentsByState .CLEANABLE).map (idAt sm) ++
  (sm.segmentsByState .NEWLY_CLEANABLE).map (idAt sm) ++
  (sm.segmentsByState .CLEANABLE_PENDING_DIGEST).map (idAt sm) ++
  (sm.segmentsByState .HEAD).map (idAt sm) ++
  [sm.nextSegmentId] ++
  (sm.segmentsByState .FREEABLE_PENDING_DIGEST_AND_REFERENCES).map (idAt sm)

/-- Id discipline maintained by the manager (ids are issued strictly
increasingly and never reused): the digest's candidate ids are pairwise
distinct, and the fresh id differs from all live ones. -/
def idsOk (sm : SM) : Prop :=
  (digestPool sm).Nodup

instance (sm : SM) : Decidable (idsOk sm) := by
  unfold idsOk; infer_instance

/-- Build a non-emergency-by-default segment record for examples. -/
def mkSeg (i slot : Nat) (emer : Bool) (ep : Nat) : LogSegment :=
  { id := i, slot := slot, isEmergencyHead := emer, cleanedEpoch := ep,
    segletsAllocated := 10, appendsDisabled := false }

/-- A populated example manager: a head (slot 0), one segment in each of
`CLEANABLE` (1), `NEWLY_CLEANABLE` (2), `CLEANABLE_PENDING_DIGEST` (3),
`FREEABLE_PENDING_DIGEST_AND_REFERENCES` (4, cleaned at epoch 1) and
`FREEABLE_PENDING_REFERENCES` (5, cleaned at epoch 0), two free slots, no
active iterator. -/
def smEx : SM :=
  { maxSegments := 8
    numEmergencyHeads := 2
    numEmergencyHeadsAlloced := 0
    numSurvivorSegments := 2
    numSurvivorSegmentsAlloced := 0
    segments := fun n =>
      if n = 0 then some (mkSeg 0 0 false 0)
      else if n = 1 then some (mkSeg 1 1 false 0)
      else if n = 2 then some (mkSeg 2 2 false 0)
      else if n = 3 then some (mkSeg 3 3 false 0)
      else if n = 4 then some (mkSeg 4 4 false 1)
      else if n = 5 then some (mkSeg 5 5 false 0)
      else none
    states := fun n =>
      if n = 0 then some .HEAD
      else if n = 1 then some .CLEANABLE
      else if n = 2 then some .NEWLY_CLEANABLE
      else if n = 3 then some .CLEANABLE_PENDING_DIGEST
      else if n = 4 then some .FREEABLE_PENDING_DIGEST_AND_REFERENCES
      else if n = 5 then some .FREEABLE_PENDING_REFERENCES
      else none
    freeSlots := [6, 7]
    nextSegmentId := 6
    idToSlotMap := fun i => if i < 6 then some i else none
    allSegments := [0, 1, 2, 3, 4, 5]
    segmentsByState := fun st =>
      match st with
      | .HEAD => [0]
      | .CLEANING_INTO => []
      | .CLEANABLE_PENDING_DIGEST => [3]
      | .NEWLY_CLEANABLE => [2]
      | .CLEANABLE => [1]
      | .FREEABLE_PENDING_DIGEST_AND_REFERENCES => [4]
      | .FREEABLE_PENDING_REFERENCES => [5]
    logIteratorCount := 0
    freeSegmentCount := 5
    currentEpoch := 3
    segletsPerSegment := 10 }

/-- An example state with an active log iterator (count 1) and a segment
(slot 0, id 5, cleaned at epoch 0) sitting in
`FREEABLE_PENDING_REFERENCES` from before the iterator was created. -/
def smIter : SM :=
  { maxSegments := 1
    numEmergencyHeads := 2
    numEmergencyHeadsAlloced := 0
    numSurvivorSegments := 0
    numSurvivorSegmentsAlloced := 0
    segments := fun n => if n = 0 then some (mkSeg 5 0 false 0) else none
    states := fun n =>
      if n = 0 then some .FREEABLE_PENDING_REFERENCES else none
    freeSlots := []
    nextSegmentId := 6
    idToSlotMap := fun i => if i = 5 then some 0 else none
    allSegments := [0]
    segmentsByState := fun st =>
      match st with
      | .FREEABLE_PENDING_REFERENCES => [0]
      | _ => []
    logIteratorCount := 1
    freeSegmentCount := 1
    currentEpoch := 1
    segletsPerSegment := 10 }

/-- An example out-of-memory state: a normal head in slot 0, a cleaned
segment in `FREEABLE_PENDING_DIGEST_AND_REFERENCES` in slot 1, two free
segments — too few for a normal head past the emergency reserve. -/
def smEm : SM :=
  { maxSegments := 4
    numEmergencyHeads := 2
    numEmergencyHeadsAlloced := 0
    numSurvivorSegments := 0
    numSurvivorSegmentsAlloced := 0
    segments := fun n =>
      if n = 0 then some (mkSeg 0 0 false 0)
      else if n = 1 then some (mkSeg 1 1 false 0)
      else none
    states := fun n =>
      if n = 0 then some .HEAD
      else if n = 1 then some .FREEABLE_PENDING_DIGEST_AND_REFERENCES
      else none
    freeSlots := [2, 3]
    nextSegmentId := 2
    idToSlotMap := fun i => if i < 2 then some i else none
    allSegments := [0, 1]
    segmentsByState := fun st =>
      match st with
      | .HEAD => [0]
      | .FREEABLE_PENDING_DIGEST_AND_REFERENCES => [1]
      | _ => []
    logIteratorCount := 0
    freeSegmentCount := 2
    currentEpoch := 1
    segletsPerSegment := 10 }

/-- An example out-of-memory state with nothing pending: a head in slot 0,
one `FREEABLE_PENDING_REFERENCES` segment (slot 1, cleaned at epoch 0),
and too few free segments for a new head. -/
def smOOM : SM :=
  { maxSegments := 4
    numEmergencyHeads := 2
    numEmergencyHeadsAlloced := 0
    numSurvivorSegments := 0
    numSurvivorSegmentsAlloced := 0
    segments := fun n =>
      if n = 0 then some (mkSeg 0 0 false 0)
      else if n = 1 then some (mkSeg 1 1 false 0)
      else none
    states := fun n =>
      if n = 0 then some .HEAD
      else if n = 1 then some .FREEABLE_PENDING_REFERENCES
      else none
    freeSlots := [2, 3]
    nextSegmentId := 2
    idToSlotMap := fun i => if i < 2 then some i else none
    allSegments := [0, 1]
    segmentsByState := fun st =>
      match st with
      | .HEAD => [0]
      | .FREEABLE_PENDING_REFERENCES => [1]
      | _ => []
    logIteratorCount := 0
    freeSegmentCount := 1
    currentEpoch := 1
    segletsPerSegment := 10 }

/-- A degraded example state — an emergency head was drawn while only two
segments were free, leaving the allocator's free count (1) below the
emergency-head reserve (2).  Reachable: construct with two free segments
and call `allocHead(true)` on the empty log. -/
def smLowFree : SM :=
  { maxSegments := 2
    numEmergencyHeads := 2
    numEmergencyHeadsAlloced := 1
    numSurvivorSegments := 0
    numSurvivorSegmentsAlloced := 0
    segments := fun n => if n = 0 then some (mkSeg 0 0 true 0) else none
    states := fun n => if n = 0 then some .HEAD else none
    freeSlots := [1]
    nextSegmentId := 1
    idToSlotMap := fun i => if i = 0 then some 0 else none
    allSegments := [0]
    segmentsByState := fun st =>
      match st with
      | .HEAD => [0]
      | _ => []
    logIteratorCount := 0
    freeSegmentCount := 1
    currentEpoch := 0
    segletsPerSegment := 10 }

/-- The previous-head contribution to a digest written by `allocHead`: the
previous head's id when one exists and it is not an emergency head. -/
def prevDigestPart (sm : SM) : List Nat :=
  match getHeadSegment sm with
  | some p => if isEmergencyAt sm p then [] else [idAt sm p]
  | none => []

/-- Relation between the manager state at the start of `allocHead` and the
state after a successful `alloc` of a new head (normal or emergency) in slot
`nh`: the reclamation scan may have freed `FREEABLE_PENDING_REFERENCES`
segments and the new head has been added to the `HEAD` list, everything else
is unchanged. -/
def PostAlloc (sm A : SM) (nh : Nat) (emer : Bool) : Prop :=
  Wf A ∧
  A.logIteratorCount = sm.logIteratorCount ∧
  A.nextSegmentId = sm.nextSegmentId + 1 ∧
  (∀ t, t ≠ SegState.HEAD → t ≠ SegState.FREEABLE_PENDING_REFERENCES →
     A.segmentsByState t = sm.segmentsByState t) ∧
  A.segmentsByState SegState.HEAD = sm.segmentsByState SegState.HEAD ++ [nh] ∧
  A.segments nh = some
    { id := sm.nextSegmentId
      slot := nh
      isEmergencyHead := emer
      cleanedEpoch := 0
      segletsAllocated := sm.segletsPerSegment
      appendsDisabled := false } ∧
  (∀ j t, sm.states j = some t → t ≠ SegState.FREEABLE_PENDING_REFERENCES →
     (sm.segments j).isSome = true →
     j ≠ nh ∧ A.segments j = sm.segments j ∧ A.states j = sm.states j)

theorem mem_allSegStates (st : SegState) : st ∈ allSegStates := by
  cases st <;> simp [allSegStates]

theorem wf_listOk {sm : SM} (h : Wf sm) (st : SegState) : listOk sm st :=
  h.1 st (mem_allSegStates st)

@[simp] theorem removeFromLists_segments (slot : Nat) (sm : SM) :
    (removeFromLists slot sm).segments = sm.segments := by
  unfold removeFromLists; split <;> rfl

@[simp] theorem removeFromLists_states (slot : Nat) (sm : SM) :
    (removeFromLists slot sm).states = sm.states := by
  unfold removeFromLists; split <;> rfl

@[simp] theorem removeFromLists_freeSlots (slot : Nat) (sm : SM) :
    (removeFromLists slot sm).freeSlots = sm.freeSlots := by
  unfold removeFromLists; split <;> rfl

@[simp] theorem removeFromLists_idToSlotMap (slot : Nat) (sm : SM) :
    (removeFromLists slot sm).idToSlotMap = sm.idToSlotMap := by
  unfold removeFromLists; split <;> rfl

@[simp] theorem removeFromLists_nextSegmentId (slot : Nat) (sm : SM) :
    (removeFromLists slot sm).nextSegmentId = sm.nextSegmentId := by
  unfold removeFromLists; split <;> rfl

@[simp] theorem removeFromLists_logIteratorCount (slot : Nat) (sm : SM) :
    (removeFromLists slot sm).logIteratorCount = sm.logIteratorCount := by
  unfold removeFromLists; split <;> rfl

@[simp] theorem removeFromLists_currentEpoch (slot : Nat) (sm : SM) :
    (removeFromLists slot sm).currentEpoch = sm.currentEpoch := by
  unfold removeFromLists; split <;> rfl

@[simp] theorem removeFromLists_numEmergencyHeads (slot : Nat) (sm : SM) :
    (removeFromLists slot sm).numEmergencyHeads = sm.numEmergencyHeads := by
  unfold removeFromLists; split <;> rfl

@[simp] theorem removeFromLists_numEmergencyHeadsAlloced (slot : Nat) (sm : SM) :
    (removeFromLists slot sm).numEmergencyHeadsAlloced = sm.numEmergencyHeadsAlloced := by
  unfold removeFromLists; split <;> rfl

@[simp] theorem removeFromLists_numSurvivorSegments (slot : Nat) (sm : SM) :
    (removeFromLists slot sm).numSurvivorSegments = sm.numSurvivorSegments := by
  unfold removeFromLists; split <;> rfl

@[simp] theorem removeFromLists_numSurvivorSegmentsAlloced (slot : Nat) (sm : SM) :
    (removeFromLists slot sm).numSurvivorSegmentsAlloced = sm.numSurvivorSegmentsAlloced := by
  unfold removeFromLists; split <;> rfl

@[simp] theorem removeFromLists_freeSegmentCount (slot : Nat) (sm : SM) :
    (removeFromLists slot sm).freeSegmentCount = sm.freeSegmentCount := by
  unfold removeFromLists; split <;> rfl

@[simp] theorem removeFromLists_segletsPerSegment (slot : Nat) (sm : SM) :
    (removeFromLists slot sm).segletsPerSegment = sm.segletsPerSegment := by
  unfold removeFromLists; split <;> rfl

theorem removeFromLists_id {sm : SM} {slot : Nat} (h : sm.states slot = none) :
    removeFromLists slot sm = sm := by
  simp [removeFromLists, h]

theorem removeFromLists_byState_apply {sm : SM} {slot : Nat} {st0 : SegState}
    (h : sm.states slot = some st0) (t : SegState) :
    (removeFromLists slot sm).segmentsByState t =
      if t = st0 then (sm.segmentsByState st0).erase slot
      else sm.segmentsByState t := by
  simp [removeFromLists, h]

theorem removeFromLists_allSegments {sm : SM} {slot : Nat} {st0 : SegState}
    (h : sm.states slot = some st0) :
    (removeFromLists slot sm).allSegments = sm.allSegments.erase slot := by
  simp [removeFromLists, h]

theorem removeFromLists_not_mem_byState {sm : SM} {slot j : Nat} {t : SegState}
    (h : j ∉ sm.segmentsByState t) :
    j ∉ (removeFromLists slot sm).segmentsByState t := by
  unfold removeFromLists
  split
  · exact h
  · simp only
    split
    · rename_i st0 _ ht
      subst ht
      intro hmem
      exact h (List.mem_of_mem_erase hmem)
    · exact h

theorem removeFromLists_not_mem_allSegments {sm : SM} {slot j : Nat}
    (h : j ∉ sm.allSegments) :
    j ∉ (removeFromLists slot sm).allSegments := by
  unfold removeFromLists
  split
  · exact h
  · simp only
    intro hmem
    exact h (List.mem_of_mem_erase hmem)

@[simp] theorem addToLists_segments (slot : Nat) (sm : SM) :
    (addToLists slot sm).segments = sm.segments := by
  unfold addToLists; split <;> rfl

@[simp] theorem addToLists_states (slot : Nat) (sm : SM) :
    (addToLists slot sm).states = sm.states := by
  unfold addToLists; split <;> rfl

@[simp] theorem addToLists_freeSlots (slot : Nat) (sm : SM) :
    (addToLists slot sm).freeSlots = sm.freeSlots := by
  unfold addToLists; split <;> rfl

@[simp] theorem addToLists_idToSlotMap (slot : Nat) (sm : SM) :
    (addToLists slot sm).idToSlotMap = sm.idToSlotMap := by
  unfold addToLists; split <;> rfl

@[simp] theorem addToLists_nextSegmentId (slot : Nat) (sm : SM) :
    (addToLists slot sm).nextSegmentId = sm.nextSegmentId := by
  unfold addToLists; split <;> rfl

@[simp] theorem addToLists_logIteratorCount (slot : Nat) (sm : SM) :
    (addToLists slot sm).logIteratorCount = sm.logIteratorCount := by
  unfold addToLists; split <;> rfl

@[simp] theorem addToLists_currentEpoch (slot : Nat) (sm : SM) :
    (addToLists slot sm).currentEpoch = sm.currentEpoch := by
  unfold addToLists; split <;> rfl

@[simp] theorem addToLists_numEmergencyHeads (slot : Nat) (sm : SM) :
    (addToLists slot sm).numEmergencyHeads = sm.numEmergencyHeads := by
  unfold addToLists; split <;> rfl

@[simp] theorem addToLists_numEmergencyHeadsAlloced (slot : Nat) (sm : SM) :
    (addToLists slot sm).numEmergencyHeadsAlloced = sm.numEmergencyHeadsAlloced := by
  unfold addToLists; split <;> rfl

@[simp] theorem addToLists_numSurvivorSegments (slot : Nat) (sm : SM) :
    (addToLists slot sm).numSurvivorSegments = sm.numSurvivorSegments := by
  unfold addToLists; split <;> rfl

@[simp] theorem addToLists_numSurvivorSegmentsAlloced (slot : Nat) (sm : SM) :
    (addToLists slot sm).numSurvivorSegmentsAlloced = sm.numSurvivorSegmentsAlloced := by
  unfold addToLists; split <;> rfl

@[simp] theorem addToLists_freeSegmentCount (slot : Nat) (sm : SM) :
    (addToLists slot sm).freeSegmentCount = sm.freeSegmentCount := by
  unfold addToLists; split <;> rfl

@[simp] theorem addToLists_segletsPerSegment (slot : Nat) (sm : SM) :
    (addToLists slot sm).segletsPerSegment = sm.segletsPerSegment := by
  unfold addToLists; split <;> rfl

theorem addToLists_byState_apply {sm : SM} {slot : Nat} {st0 : SegState}
    (h : sm.states slot = some st0) (t : SegState) :
    (addToLists slot sm).segmentsByState t =
      if t = st0 then sm.segmentsByState st0 ++ [slot]
      else sm.segmentsByState t := by
  simp [addToLists, h]

theorem addToLists_allSegments {sm : SM} {slot : Nat} {st0 : SegState}
    (h : sm.states slot = some st0) :
    (addToLists slot sm).allSegments = sm.allSegments ++ [slot] := by
  simp [addToLists, h]

@[simp] theorem setStateAt_segments (slot : Nat) (st : SegState) (sm : SM) :
    (setStateAt slot st sm).segments = sm.segments := rfl

@[simp] theorem setStateAt_byState (slot : Nat) (st : SegState) (sm : SM) :
    (setStateAt slot st sm).segmentsByState = sm.segmentsByState := rfl

@[simp] theorem setStateAt_states_apply (slot : Nat) (st : SegState) (sm : SM) (j : Nat) :
    (setStateAt slot st sm).states j = if j = slot then some st else sm.states j := rfl

@[simp] theorem changeState_segments (slot : Nat) (st : SegState) (sm : SM) :
    (changeState slot st sm).segments = sm.segments := by
  simp [changeState, setStateAt]

@[simp] theorem changeState_states_apply (slot : Nat) (st : SegState) (sm : SM) (j : Nat) :
    (changeState slot st sm).states j = if j = slot then some st else sm.states j := by
  simp [changeState]

@[simp] theorem changeState_freeSlots (slot : Nat) (st : SegState) (sm : SM) :
    (changeState slot st sm).freeSlots = sm.freeSlots := by
  simp [changeState, setStateAt]

@[simp] theorem changeState_idToSlotMap (slot : Nat) (st : SegState) (sm : SM) :
    (changeState slot st sm).idToSlotMap = sm.idToSlotMap := by
  simp [changeState, setStateAt]

@[simp] theorem changeState_nextSegmentId (slot : Nat) (st : SegState) (sm : SM) :
    (changeState slot st sm).nextSegmentId = sm.nextSegmentId := by
  simp [changeState, setStateAt]

@[simp] theorem changeState_logIteratorCount (slot : Nat) (st : SegState) (sm : SM) :
    (changeState slot st sm).logIteratorCount = sm.logIteratorCount := by
  simp [changeState, setStateAt]

@[simp] theorem changeState_currentEpoch (slot : Nat) (st : SegState) (sm : SM) :
    (changeState slot st sm).currentEpoch = sm.currentEpoch := by
  simp [changeState, setStateAt]

@[simp] theorem changeState_numEmergencyHeads (slot : Nat) (st : SegState) (sm : SM) :
    (changeState slot st sm).numEmergencyHeads = sm.numEmergencyHeads := by
  simp [changeState, setStateAt]

@[simp] theorem changeState_numEmergencyHeadsAlloced (slot : Nat) (st : SegState) (sm : SM) :
    (changeState slot st sm).numEmergencyHeadsAlloced = sm.numEmergencyHeadsAlloced := by
  simp [changeState, setStateAt]

@[simp] theorem changeState_numSurvivorSegments (slot : Nat) (st : SegState) (sm : SM) :
    (changeState slot st sm).numSurvivorSegments = sm.numSurvivorSegments := by
  simp [changeState, setStateAt]

@[simp] theorem changeState_numSurvivorSegmentsAlloced (slot : Nat) (st : SegState) (sm : SM) :
    (changeState slot st sm).numSurvivorSegmentsAlloced = sm.numSurvivorSegmentsAlloced := by
  simp [changeState, setStateAt]

@[simp] theorem changeState_freeSegmentCount (slot : Nat) (st : SegState) (sm : SM) :
    (changeState slot st sm).freeSegmentCount = sm.freeSegmentCount := by
  simp [changeState, setStateAt]

@[simp] theorem changeState_segletsPerSegment (slot : Nat) (st : SegState) (sm : SM) :
    (changeState slot st sm).segletsPerSegment = sm.segletsPerSegment := by
  simp [changeState, setStateAt]

theorem changeState_byState_apply {sm : SM} {slot : Nat} {src dst : SegState}
    (h : sm.states slot = some src) (hne : src ≠ dst) (t : SegState) :
    (changeState slot dst sm).segmentsByState t =
      if t = src then (sm.segmentsByState src).erase slot
      else if t = dst then sm.segmentsByState dst ++ [slot]
      else sm.segmentsByState t := by
  have h1 : (setStateAt slot dst (removeFromLists slot sm)).states slot = some dst := by
    simp
  rw [changeState, addToLists_byState_apply h1 t]
  simp only [setStateAt_byState, removeFromLists_byState_apply h]
  by_cases h2 : t = dst <;> by_cases h3 : t = src <;>
    simp [h2, h3, hne, Ne.symm hne]

theorem free_id {sm : SM} {slot : Nat} (h : sm.segments slot = none) :
    free slot sm = sm := by
  simp [free, h]

@[simp] theorem free_nextSegmentId (slot : Nat) (sm : SM) :
    (free slot sm).nextSegmentId = sm.nextSegmentId := by
  unfold free; split <;> simp

@[simp] theorem free_logIteratorCount (slot : Nat) (sm : SM) :
    (free slot sm).logIteratorCount = sm.logIteratorCount := by
  unfold free; split <;> simp

@[simp] theorem free_currentEpoch (slot : Nat) (sm : SM) :
    (free slot sm).currentEpoch = sm.currentEpoch := by
  unfold free; split <;> simp

@[simp] theorem free_numEmergencyHeads (slot : Nat) (sm : SM) :
    (free slot sm).numEmergencyHeads = sm.numEmergencyHeads := by
  unfold free; split <;> simp

@[simp] theorem free_numSurvivorSegments (slot : Nat) (sm : SM) :
    (free slot sm).numSurvivorSegments = sm.numSurvivorSegments := by
  unfold free; split <;> simp

@[simp] theorem free_segletsPerSegment (slot : Nat) (sm : SM) :
    (free slot sm).segletsPerSegment = sm.segletsPerSegment := by
  unfold free; split <;> simp

theorem free_segments_apply {sm : SM} {slot : Nat} {s : LogSegment}
    (h : sm.segments slot = some s) (j : Nat) :
    (free slot sm).segments j = if j = slot then none else sm.segments j := by
  simp [free, h]

theorem free_states_apply {sm : SM} {slot : Nat} {s : LogSegment}
    (h : sm.segments slot = some s) (j : Nat) :
    (free slot sm).states j = if j = slot then none else sm.states j := by
  simp [free, h]

theorem free_freeSlots {sm : SM} {slot : Nat} {s : LogSegment}
    (h : sm.segments slot = some s) :
    (free slot sm).freeSlots = sm.freeSlots ++ [slot] := by
  simp [free, h]

theorem free_idToSlotMap_apply {sm : SM} {slot : Nat} {s : LogSegment}
    (h : sm.segments slot = some s) (i : Nat) :
    (free slot sm).idToSlotMap i = if i = s.id then none else sm.idToSlotMap i := by
  simp [free, h]

theorem free_numEmergencyHeadsAlloced {sm : SM} {slot : Nat} {s : LogSegment}
    (h : sm.segments slot = some s) :
    (free slot sm).numEmergencyHeadsAlloced =
      if s.isEmergencyHead then sm.numEmergencyHeadsAlloced - 1
      else sm.numEmergencyHeadsAlloced := by
  simp [free, h]

theorem free_numSurvivorSegmentsAlloced {sm : SM} {slot : Nat} {s : LogSegment}
    (h : sm.segments slot = some s) :
    (free slot sm).numSurvivorSegmentsAlloced =
      if s.isEmergencyHead then sm.numSurvivorSegmentsAlloced
      else if 0 < sm.numSurvivorSegmentsAlloced then sm.numSurvivorSegmentsAlloced - 1
      else sm.numSurvivorSegmentsAlloced := by
  simp [free, h]

theorem free_freeSegmentCount {sm : SM} {slot : Nat} {s : LogSegment}
    (h : sm.segments slot = some s) :
    (free slot sm).freeSegmentCount = sm.freeSegmentCount + 1 := by
  simp [free, h]

theorem free_byState_eq_remove {sm : SM} {slot : Nat} {s : LogSegment}
    (h : sm.segments slot = some s) :
    (free slot sm).segmentsByState = (removeFromLists slot sm).segmentsByState := by
  simp [free, h]

theorem free_allSegments_eq_remove {sm : SM} {slot : Nat} {s : LogSegment}
    (h : sm.segments slot = some s) :
    (free slot sm).allSegments = (removeFromLists slot sm).allSegments := by
  simp [free, h]

theorem free_byState_apply {sm : SM} {slot : Nat} {s : LogSegment} {st0 : SegState}
    (h : sm.segments slot = some s) (hst : sm.states slot = some st0) (t : SegState) :
    (free slot sm).segmentsByState t =
      if t = st0 then (sm.segmentsByState st0).erase slot
      else sm.segmentsByState t := by
  rw [free_byState_eq_remove h, removeFromLists_byState_apply hst]

theorem free_allSegments {sm : SM} {slot : Nat} {s : LogSegment} {st0 : SegState}
    (h : sm.segments slot = some s) (hst : sm.states slot = some st0) :
    (free slot sm).allSegments = sm.allSegments.erase slot := by
  rw [free_allSegments_eq_remove h, removeFromLists_allSegments hst]

theorem free_not_mem_byState {sm : SM} {slot j : Nat} {t : SegState}
    (h : j ∉ sm.segmentsByState t) :
    j ∉ (free slot sm).segmentsByState t := by
  cases heq : sm.segments slot with
  | none => rw [free_id heq]; exact h
  | some s =>
    rw [free_byState_eq_remove heq]
    exact removeFromLists_not_mem_byState h

theorem free_not_mem_allSegments {sm : SM} {slot j : Nat}
    (h : j ∉ sm.allSegments) :
    j ∉ (free slot sm).allSegments := by
  cases heq : sm.segments slot with
  | none => rw [free_id heq]; exact h
  | some s =>
    rw [free_allSegments_eq_remove heq]
    exact removeFromLists_not_mem_allSegments h

theorem free_preserves_Wf {sm : SM} {slot : Nat} {s : LogSegment} {st0 : SegState}
    (h : sm.segments slot = some s) (hst : sm.states slot = some st0)
    (hW : Wf sm) : Wf (free slot sm) := by
  obtain ⟨hlists, hallnd, hallok, hfsnd, hfsok⟩ := hW
  have hslot_not_free : slot ∉ sm.freeSlots := by
    intro hmem
    have := (hfsok slot hmem).1
    rw [h] at this
    cases this
  refine ⟨?_, ?_, ?_, ?_, ?_⟩
  · intro st _
    obtain ⟨hnd0, hok0⟩ := hlists st0 (mem_allSegStates st0)
    obtain ⟨hndt, hokt⟩ := hlists st (mem_allSegStates st)
    rw [listOk, free_byState_apply h hst st]
    by_cases hts : st = st0
    · subst hts
      rw [if_pos rfl]
      refine ⟨hnd0.erase slot, ?_⟩
      intro m hm
      have hmem := List.mem_of_mem_erase hm
      have hmne : m ≠ slot := ((List.Nodup.mem_erase_iff hnd0).1 (by simpa using hm)).1
      obtain ⟨h1, h2⟩ := hok0 m hmem
      rw [free_segments_apply h m, free_states_apply h m]
      simp [hmne, h1, h2]
    · rw [if_neg hts]
      refine ⟨hndt, ?_⟩
      intro m hm
      obtain ⟨h1, h2⟩ := hokt m hm
      have hmne : m ≠ slot := by
        intro he
        subst he
        rw [hst] at h2
        exact hts (by injection h2 with h3; exact h3.symm)
      rw [free_segments_apply h m, free_states_apply h m]
      simp [hmne, h1, h2]
  · rw [free_allSegments h hst]
    exact hallnd.erase slot
  · rw [free_allSegments h hst]
    intro m hm
    have hmem := List.mem_of_mem_erase hm
    have hmne : m ≠ slot := ((List.Nodup.mem_erase_iff hallnd).1 (by simpa using hm)).1
    rw [free_segments_apply h m]
    simp [hmne, hallok m hmem]
  · rw [free_freeSlots h]
    rw [List.nodup_append]
    refine ⟨hfsnd, List.nodup_singleton slot, ?_⟩
    intro a ha hb
    rw [List.mem_singleton] at hb
    subst hb
    exact hslot_not_free ha
  · rw [free_freeSlots h]
    intro m hm
    rw [List.mem_append, List.mem_singleton] at hm
    rw [free_segments_apply h m, free_states_apply h m]
    rcases hm with hm | hm
    · have hmne : m ≠ slot := by
        intro he; subst he; exact hslot_not_free hm
      obtain ⟨h1, h2⟩ := hfsok m hm
      simp [hmne, h1, h2]
    · subst hm
      simp

@[simp] theorem scanStep_nextSegmentId (e slot : Nat) (sm : SM) :
    (scanStep e slot sm).nextSegmentId = sm.nextSegmentId := by
  unfold scanStep
  split
  · split <;> simp
  · rfl

@[simp] theorem scanStep_logIteratorCount (e slot : Nat) (sm : SM) :
    (scanStep e slot sm).logIteratorCount = sm.logIteratorCount := by
  unfold scanStep
  split
  · split <;> simp
  · rfl

@[simp] theorem scanStep_currentEpoch (e slot : Nat) (sm : SM) :
    (scanStep e slot sm).currentEpoch = sm.currentEpoch := by
  unfold scanStep
  split
  · split <;> simp
  · rfl

@[simp] theorem scanStep_numEmergencyHeads (e slot : Nat) (sm : SM) :
    (scanStep e slot sm).numEmergencyHeads = sm.numEmergencyHeads := by
  unfold scanStep
  split
  · split <;> simp
  · rfl

@[simp] theorem scanStep_numSurvivorSegments (e slot : Nat) (sm : SM) :
    (scanStep e slot sm).numSurvivorSegments = sm.numSurvivorSegments := by
  unfold scanStep
  split
  · split <;> simp
  · rfl

@[simp] theorem scanStep_segletsPerSegment (e slot : Nat) (sm : SM) :
    (scanStep e slot sm).segletsPerSegment = sm.segletsPerSegment := by
  unfold scanStep
  split
  · split <;> simp
  · rfl

theorem scanStep_segments_ne {e slot j : Nat} {sm : SM} (hne : j ≠ slot) :
    (scanStep e slot sm).segments j = sm.segments j := by
  unfold scanStep
  split
  · rename_i s heq
    split
    · rw [free_segments_apply heq j, if_neg hne]
    · rfl
  · rfl

theorem scanStep_states_ne {e slot j : Nat} {sm : SM} (hne : j ≠ slot) :
    (scanStep e slot sm).states j = sm.states j := by
  unfold scanStep
  split
  · rename_i s heq
    split
    · rw [free_states_apply heq j, if_neg hne]
    · rfl
  · rfl

theorem scanStep_segments_none {e slot j : Nat} {sm : SM}
    (h : sm.segments j = none) :
    (scanStep e slot sm).segments j = none := by
  by_cases hj : j = slot
  · subst hj
    unfold scanStep
    rw [h]
    exact h
  · rw [scanStep_segments_ne hj]
    exact h

theorem scanStep_states_none {e slot j : Nat} {sm : SM}
    (h : sm.states j = none) :
    (scanStep e slot sm).states j = none := by
  unfold scanStep
  split
  · rename_i s heq
    split
    · rw [free_states_apply heq j]
      split <;> simp [h]
    · exact h
  · exact h

theorem scanStep_freeSlots_suffix (e slot : Nat) (sm : SM) :
    ∃ l, (scanStep e slot sm).freeSlots = sm.freeSlots ++ l := by
  unfold scanStep
  split
  · rename_i s heq
    split
    · exact ⟨[slot], free_freeSlots heq⟩
    · exact ⟨[], by simp⟩
  · exact ⟨[], by simp⟩

theorem scanStep_idToSlotMap_none {e slot i : Nat} {sm : SM}
    (h : sm.idToSlotMap i = none) :
    (scanStep e slot sm).idToSlotMap i = none := by
  unfold scanStep
  split
  · rename_i s heq
    split
    · rw [free_idToSlotMap_apply heq i]
      split <;> simp [h]
    · exact h
  · exact h

theorem scanStep_not_mem_byState {e slot j : Nat} {sm : SM} {t : SegState}
    (h : j ∉ sm.segmentsByState t) :
    j ∉ (scanStep e slot sm).segmentsByState t := by
  unfold scanStep
  split
  · split
    · exact free_not_mem_byState h
    · exact h
  · exact h

theorem scanStep_not_mem_allSegments {e slot j : Nat} {sm : SM}
    (h : j ∉ sm.allSegments) :
    j ∉ (scanStep e slot sm).allSegments := by
  unfold scanStep
  split
  · split
    · exact free_not_mem_allSegments h
    · exact h
  · exact h

theorem scanStep_byState_ne {e slot : Nat} {sm : SM} {t : SegState}
    (hst : sm.states slot = some .FREEABLE_PENDING_REFERENCES)
    (ht : t ≠ .FREEABLE_PENDING_REFERENCES) :
    (scanStep e slot sm).segmentsByState t = sm.segmentsByState t := by
  unfold scanStep
  split
  · rename_i s heq
    split
    · rw [free_byState_apply heq hst t, if_neg ht]
    · rfl
  · rfl

theorem scanStep_Wf {e slot : Nat} {sm : SM}
    (hok : sm.segments slot = none ∨ (sm.states slot).isSome = true)
    (hW : Wf sm) : Wf (scanStep e slot sm) := by
  unfold scanStep
  split
  · rename_i s heq
    split
    · rcases hok with hok | hok
      · rw [heq] at hok; cases hok
      · obtain ⟨st0, hst⟩ := Option.isSome_iff_exists.1 hok
        exact free_preserves_Wf heq hst hW
    · exact hW
  · exact hW

@[simp] theorem scanFree_nextSegmentId (e : Nat) (L : List Nat) (sm : SM) :
    (scanFree e L sm).nextSegmentId = sm.nextSegmentId := by
  induction L generalizing sm with
  | nil => rfl
  | cons a L ih => rw [scanFree, ih, scanStep_nextSegmentId]

@[simp] theorem scanFree_logIteratorCount (e : Nat) (L : List Nat) (sm : SM) :
    (scanFree e L sm).logIteratorCount = sm.logIteratorCount := by
  induction L generalizing sm with
  | nil => rfl
  | cons a L ih => rw [scanFree, ih, scanStep_logIteratorCount]

@[simp] theorem scanFree_currentEpoch (e : Nat) (L : List Nat) (sm : SM) :
    (scanFree e L sm).currentEpoch = sm.currentEpoch := by
  induction L generalizing sm with
  | nil => rfl
  | cons a L ih => rw [scanFree, ih, scanStep_currentEpoch]

theorem scanFree_segments_not_mem {e j : Nat} {L : List Nat} {sm : SM}
    (h : j ∉ L) :
    (scanFree e L sm).segments j = sm.segments j := by
  induction L generalizing sm with
  | nil => rfl
  | cons a L ih =>
    simp only [List.mem_cons, not_or] at h
    rw [scanFree, ih h.2, scanStep_segments_ne h.1]

theorem scanFree_states_not_mem {e j : Nat} {L : List Nat} {sm : SM}
    (h : j ∉ L) :
    (scanFree e L sm).states j = sm.states j := by
  induction L generalizing sm with
  | nil => rfl
  | cons a L ih =>
    simp only [List.mem_cons, not_or] at h
    rw [scanFree, ih h.2, scanStep_states_ne h.1]

theorem scanFree_segments_none {e j : Nat} {L : List Nat} {sm : SM}
    (h : sm.segments j = none) :
    (scanFree e L sm).segments j = none := by
  induction L generalizing sm with
  | nil => exact h
  | cons a L ih => exact ih (scanStep_segments_none h)

theorem scanFree_states_none {e j : Nat} {L : List Nat} {sm : SM}
    (h : sm.states j = none) :
    (scanFree e L sm).states j = none := by
  induction L generalizing sm with
  | nil => exact h
  | cons a L ih => exact ih (scanStep_states_none h)

theorem scanFree_idToSlotMap_none {e i : Nat} {L : List Nat} {sm : SM}
    (h : sm.idToSlotMap i = none) :
    (scanFree e L sm).idToSlotMap i = none := by
  induction L generalizing sm with
  | nil => exact h
  | cons a L ih => exact ih (scanStep_idToSlotMap_none h)

theorem scanFree_not_mem_byState {e j : Nat} {L : List Nat} {sm : SM} {t : SegState}
    (h : j ∉ sm.segmentsByState t) :
    j ∉ (scanFree e L sm).segmentsByState t := by
  induction L generalizing sm with
  | nil => exact h
  | cons a L ih => exact ih (scanStep_not_mem_byState h)

theorem scanFree_not_mem_allSegments {e j : Nat} {L : List Nat} {sm : SM}
    (h : j ∉ sm.allSegments) :
    j ∉ (scanFree e L sm).allSegments := by
  induction L generalizing sm with
  | nil => exact h
  | cons a L ih => exact ih (scanStep_not_mem_allSegments h)

theorem scanFree_freeSlots_suffix (e : Nat) (L : List Nat) (sm : SM) :
    ∃ l, (scanFree e L sm).freeSlots = sm.freeSlots ++ l := by
  induction L generalizing sm with
  | nil => exact ⟨[], by simp [scanFree]⟩
  | cons a L ih =>
    obtain ⟨l1, h1⟩ := scanStep_freeSlots_suffix e a sm
    obtain ⟨l2, h2⟩ := ih (scanStep e a sm)
    exact ⟨l1 ++ l2, by rw [scanFree, h2, h1, List.append_assoc]⟩

theorem scanFree_mem_freeSlots {e j : Nat} {L : List Nat} {sm : SM}
    (h : j ∈ sm.freeSlots) :
    j ∈ (scanFree e L sm).freeSlots := by
  obtain ⟨l, hl⟩ := scanFree_freeSlots_suffix e L sm
  rw [hl, List.mem_append]
  exact Or.inl h

theorem scanFree_Wf {e : Nat} {L : List Nat} {sm : SM}
    (hnd : L.Nodup)
    (hok : ∀ m ∈ L, sm.states m = some .FREEABLE_PENDING_REFERENCES ∧
      (sm.segments m).isSome = true)
    (hW : Wf sm) : Wf (scanFree e L sm) := by
  induction L generalizing sm with
  | nil => exact hW
  | cons a L ih =>
    rw [scanFree]
    obtain ⟨hna, hndL⟩ := List.nodup_cons.1 hnd
    refine ih hndL ?_ (scanStep_Wf (Or.inr ?_) hW)
    · intro m hm
      have hmna : m ≠ a := by rintro rfl; exact hna hm
      rw [scanStep_states_ne hmna, scanStep_segments_ne hmna]
      exact hok m (List.mem_cons_of_mem a hm)
    · rw [(hok a (List.mem_cons_self a L)).1]
      rfl

theorem scanFree_byState_ne {e : Nat} {L : List Nat} {sm : SM} {t : SegState}
    (hnd : L.Nodup)
    (hok : ∀ m ∈ L, sm.states m = some .FREEABLE_PENDING_REFERENCES ∧
      (sm.segments m).isSome = true)
    (ht : t ≠ .FREEABLE_PENDING_REFERENCES) :
    (scanFree e L sm).segmentsByState t = sm.segmentsByState t := by
  induction L generalizing sm with
  | nil => rfl
  | cons a L ih =>
    obtain ⟨hna, hndL⟩ := List.nodup_cons.1 hnd
    rw [scanFree]
    rw [ih hndL ?_, scanStep_byState_ne (hok a (List.mem_cons_self a L)).1 ht]
    intro m hm
    have hmna : m ≠ a := by rintro rfl; exact hna hm
    rw [scanStep_states_ne hmna, scanStep_segments_ne hmna]
    exact hok m (List.mem_cons_of_mem a hm)

theorem scanFree_freed {e : Nat} {L : List Nat} {sm : SM} {slot : Nat} {s : LogSegment}
    (hW : Wf sm) (hnd : L.Nodup)
    (hok : ∀ m ∈ L, sm.states m = some .FREEABLE_PENDING_REFERENCES ∧
      (sm.segments m).isSome = true)
    (hmem : slot ∈ L) (hs : sm.segments slot = some s) (hlt : s.cleanedEpoch < e) :
    (scanFree e L sm).segments slot = none ∧
    (scanFree e L sm).states slot = none ∧
    slot ∈ (scanFree e L sm).freeSlots ∧
    (scanFree e L sm).idToSlotMap s.id = none ∧
    (∀ t, slot ∉ (scanFree e L sm).segmentsByState t) ∧
    slot ∉ (scanFree e L sm).allSegments := by
  induction L generalizing sm with
  | nil => cases hmem
  | cons a L ih =>
    rw [scanFree]
    obtain ⟨hna, hndL⟩ := List.nodup_cons.1 hnd
    rcases List.mem_cons.1 hmem with hsl | hsl
    · subst hsl
      have hstep : scanStep e slot sm = free slot sm := by
        unfold scanStep
        rw [hs]
        simp [hlt]
      have hst := (hok slot (List.mem_cons_self slot L)).1
      rw [hstep]
      have hseg0 : (free slot sm).segments slot = none := by
        rw [free_segments_apply hs]; simp
      have hst0 : (free slot sm).states slot = none := by
        rw [free_states_apply hs]; simp
      have hfs0 : slot ∈ (free slot sm).freeSlots := by
        rw [free_freeSlots hs]; simp
      have hid0 : (free slot sm).idToSlotMap s.id = none := by
        rw [free_idToSlotMap_apply hs]; simp
      have hby0 : ∀ t, slot ∉ (free slot sm).segmentsByState t := by
        intro t
        rw [free_byState_apply hs hst t]
        by_cases htf : t = .FREEABLE_PENDING_REFERENCES
        · subst htf
          rw [if_pos rfl]
          have hnd0 := (wf_listOk hW .FREEABLE_PENDING_REFERENCES).1
          intro hmem2
          exact ((List.Nodup.mem_erase_iff hnd0).1 hmem2).1 rfl
        · rw [if_neg htf]
          intro hmem2
          have h2 := ((wf_listOk hW t).2 slot hmem2).2
          rw [hst] at h2
          injection h2 with h3
          exact htf h3.symm
      have hall0 : slot ∉ (free slot sm).allSegments := by
        rw [free_allSegments hs hst]
        intro hmem2
        exact ((List.Nodup.mem_erase_iff hW.2.1).1 hmem2).1 rfl
      exact ⟨scanFree_segments_none hseg0, scanFree_states_none hst0,
        scanFree_mem_freeSlots hfs0, scanFree_idToSlotMap_none hid0,
        fun t => scanFree_not_mem_byState (hby0 t),
        scanFree_not_mem_allSegments hall0⟩
    · have hslna : slot ≠ a := by rintro rfl; exact hna hsl
      have hok' : ∀ m ∈ L, (scanStep e a sm).states m =
          some .FREEABLE_PENDING_REFERENCES ∧
          ((scanStep e a sm).segments m).isSome = true := by
        intro m hm
        have hmna : m ≠ a := by rintro rfl; exact hna hm
        rw [scanStep_states_ne hmna, scanStep_segments_ne hmna]
        exact hok m (List.mem_cons_of_mem a hm)
      have hs' : (scanStep e a sm).segments slot = some s := by
        rw [scanStep_segments_ne hslna]; exact hs
      have hWa : Wf (scanStep e a sm) := by
        refine scanStep_Wf (Or.inr ?_) hW
        rw [(hok a (List.mem_cons_self a L)).1]
        rfl
      exact ih hWa hndL hok' hsl hs'

theorem scanFree_kept {e : Nat} {L : List Nat} {sm : SM} {slot : Nat} {s : LogSegment}
    (hnd : L.Nodup) (hmem : slot ∈ L) (hs : sm.segments slot = some s)
    (hge : ¬ s.cleanedEpoch < e) :
    (scanFree e L sm).segments slot = sm.segments slot ∧
    (scanFree e L sm).states slot = sm.states slot := by
  induction L generalizing sm with
  | nil => cases hmem
  | cons a L ih =>
    rw [scanFree]
    obtain ⟨hna, hndL⟩ := List.nodup_cons.1 hnd
    rcases List.mem_cons.1 hmem with hsl | hsl
    · subst hsl
      have hstep : scanStep e slot sm = sm := by
        unfold scanStep
        rw [hs]
        simp [hge]
      rw [hstep]
      exact ⟨scanFree_segments_not_mem hna, scanFree_states_not_mem hna⟩
    · have hslna : slot ≠ a := by rintro rfl; exact hna hsl
      have hs' : (scanStep e a sm).segments slot = some s := by
        rw [scanStep_segments_ne hslna]; exact hs
      obtain ⟨h1, h2⟩ := ih hndL hsl hs'
      rw [h1, h2, scanStep_segments_ne hslna, scanStep_states_ne hslna]
      exact ⟨rfl, rfl⟩

theorem freeUnref_eq_scan (sm : SM) (e : Nat) :
    freeUnreferencedSegments sm e =
      scanFree e (sm.segmentsByState .FREEABLE_PENDING_REFERENCES) sm := by
  unfold freeUnreferencedSegments
  split
  · rename_i hemp
    rw [List.isEmpty_iff] at hemp
    rw [hemp]
    rfl
  · rfl

theorem freeUnref_fprOk {sm : SM} (hW : Wf sm) :
    ∀ m ∈ sm.segmentsByState .FREEABLE_PENDING_REFERENCES,
      sm.states m = some .FREEABLE_PENDING_REFERENCES ∧
      (sm.segments m).isSome = true := by
  intro m hm
  obtain ⟨h1, h2⟩ := (wf_listOk hW .FREEABLE_PENDING_REFERENCES).2 m hm
  exact ⟨h2, h1⟩

theorem freeUnref_Wf {sm : SM} (e : Nat) (hW : Wf sm) :
    Wf (freeUnreferencedSegments sm e) := by
  rw [freeUnref_eq_scan]
  exact scanFree_Wf (wf_listOk hW _).1 (freeUnref_fprOk hW) hW

theorem freeUnref_byState_ne {sm : SM} (e : Nat) {t : SegState} (hW : Wf sm)
    (ht : t ≠ .FREEABLE_PENDING_REFERENCES) :
    (freeUnreferencedSegments sm e).segmentsByState t = sm.segmentsByState t := by
  rw [freeUnref_eq_scan]
  exact scanFree_byState_ne (wf_listOk hW _).1 (freeUnref_fprOk hW) ht

theorem freeUnref_segments_not_mem {sm : SM} {e j : Nat}
    (h : j ∉ sm.segmentsByState .FREEABLE_PENDING_REFERENCES) :
    (freeUnreferencedSegments sm e).segments j = sm.segments j := by
  rw [freeUnref_eq_scan]
  exact scanFree_segments_not_mem h

theorem freeUnref_states_not_mem {sm : SM} {e j : Nat}
    (h : j ∉ sm.segmentsByState .FREEABLE_PENDING_REFERENCES) :
    (freeUnreferencedSegments sm e).states j = sm.states j := by
  rw [freeUnref_eq_scan]
  exact scanFree_states_not_mem h

@[simp] theorem freeUnref_nextSegmentId (sm : SM) (e : Nat) :
    (freeUnreferencedSegments sm e).nextSegmentId = sm.nextSegmentId := by
  rw [freeUnref_eq_scan]; simp

@[simp] theorem freeUnref_logIteratorCount (sm : SM) (e : Nat) :
    (freeUnreferencedSegments sm e).logIteratorCount = sm.logIteratorCount := by
  rw [freeUnref_eq_scan]; simp

theorem freeUnref_freeSlots_suffix (sm : SM) (e : Nat) :
    ∃ l, (freeUnreferencedSegments sm e).freeSlots = sm.freeSlots ++ l := by
  rw [freeUnref_eq_scan]
  exact scanFree_freeSlots_suffix e _ sm

@[simp] theorem drainGo_segments (dst : SegState) (L : List Nat) (sm : SM) :
    (drainGo dst L sm).segments = sm.segments := by
  induction L generalizing sm with
  | nil => rfl
  | cons a L ih => rw [drainGo, ih, changeState_segments]

@[simp] theorem drainGo_freeSlots (dst : SegState) (L : List Nat) (sm : SM) :
    (drainGo dst L sm).freeSlots = sm.freeSlots := by
  induction L generalizing sm with
  | nil => rfl
  | cons a L ih => rw [drainGo, ih, changeState_freeSlots]

@[simp] theorem drainGo_idToSlotMap (dst : SegState) (L : List Nat) (sm : SM) :
    (drainGo dst L sm).idToSlotMap = sm.idToSlotMap := by
  induction L generalizing sm with
  | nil => rfl
  | cons a L ih => rw [drainGo, ih, changeState_idToSlotMap]

@[simp] theorem drainGo_nextSegmentId (dst : SegState) (L : List Nat) (sm : SM) :
    (drainGo dst L sm).nextSegmentId = sm.nextSegmentId := by
  induction L generalizing sm with
  | nil => rfl
  | cons a L ih => rw [drainGo, ih, changeState_nextSegmentId]

@[simp] theorem drainGo_logIteratorCount (dst : SegState) (L : List Nat) (sm : SM) :
    (drainGo dst L sm).logIteratorCount = sm.logIteratorCount := by
  induction L generalizing sm with
  | nil => rfl
  | cons a L ih => rw [drainGo, ih, changeState_logIteratorCount]

@[simp] theorem drainGo_currentEpoch (dst : SegState) (L : List Nat) (sm : SM) :
    (drainGo dst L sm).currentEpoch = sm.currentEpoch := by
  induction L generalizing sm with
  | nil => rfl
  | cons a L ih => rw [drainGo, ih, changeState_currentEpoch]

theorem drainGo_states_stable {dst : SegState} {L : List Nat} {sm : SM} {slot : Nat}
    (h : sm.states slot = some dst) :
    (drainGo dst L sm).states slot = some dst := by
  induction L generalizing sm with
  | nil => exact h
  | cons a L ih =>
    rw [drainGo]
    refine ih ?_
    rw [changeState_states_apply]
    split
    · rfl
    · exact h

theorem drainGo_states_mem {dst : SegState} {L : List Nat} {sm : SM} {slot : Nat}
    (hmem : slot ∈ L) :
    (drainGo dst L sm).states slot = some dst := by
  induction L generalizing sm with
  | nil => cases hmem
  | cons a L ih =>
    rw [drainGo]
    rcases List.mem_cons.1 hmem with hsl | hsl
    · subst hsl
      refine drainGo_states_stable ?_
      rw [changeState_states_apply]
      simp
    · exact ih hsl

theorem drainGo_states_not_mem {dst : SegState} {L : List Nat} {sm : SM} {slot : Nat}
    (h : slot ∉ L) :
    (drainGo dst L sm).states slot = sm.states slot := by
  induction L generalizing sm with
  | nil => rfl
  | cons a L ih =>
    simp only [List.mem_cons, not_or] at h
    rw [drainGo, ih h.2, changeState_states_apply, if_neg h.1]

theorem drainGo_lists {dst src : SegState} {L : List Nat} {sm : SM}
    (hne : src ≠ dst) (hnd : L.Nodup)
    (hok : ∀ m ∈ L, sm.states m = some src)
    (hL : sm.segmentsByState src = L) :
    (drainGo dst L sm).segmentsByState src = [] ∧
    (drainGo dst L sm).segmentsByState dst = sm.segmentsByState dst ++ L ∧
    (∀ t, t ≠ src → t ≠ dst → (drainGo dst L sm).segmentsByState t = sm.segmentsByState t) := by
  induction L generalizing sm with
  | nil => exact ⟨hL, by simp [drainGo], fun t _ _ => rfl⟩
  | cons a L ih =>
    rw [drainGo]
    obtain ⟨hna, hndL⟩ := List.nodup_cons.1 hnd
    have hska := hok a (List.mem_cons_self a L)
    have hbs := changeState_byState_apply hska hne
    have hok' : ∀ m ∈ L, (changeState a dst sm).states m = some src := by
      intro m hm
      have hmna : m ≠ a := by rintro rfl; exact hna hm
      rw [changeState_states_apply, if_neg hmna]
      exact hok m (List.mem_cons_of_mem a hm)
    have hL' : (changeState a dst sm).segmentsByState src = L := by
      rw [hbs src, if_pos rfl, hL, List.erase_cons_head]
    obtain ⟨ih1, ih2, ih3⟩ := ih hndL hok' hL'
    refine ⟨ih1, ?_, ?_⟩
    · rw [ih2, hbs dst, if_neg (Ne.symm hne), if_pos rfl, List.append_assoc]
      rfl
    · intro t ht1 ht2
      rw [ih3 t ht1 ht2, hbs t, if_neg ht1, if_neg ht2]

theorem alloc_fail {sm : SM} {e : Nat} {type : AllocationType}
    (hm : mayAlloc (freeUnreferencedSegments sm e) type = false) :
    alloc sm e type = (freeUnreferencedSegments sm e, none) := by
  simp [alloc, hm]

theorem alloc_none_fst {sm : SM} {e : Nat} {type : AllocationType}
    (h : (alloc sm e type).2 = none) :
    (alloc sm e type).1 = freeUnreferencedSegments sm e := by
  cases hm : mayAlloc (freeUnreferencedSegments sm e) type with
  | false => simp [alloc, hm]
  | true =>
    cases hlast : (freeUnreferencedSegments sm e).freeSlots.getLast? with
    | none => simp [alloc, hm, hlast]
    | some a =>
      exfalso
      cases type <;> simp [alloc, hm, hlast] at h

theorem alloc_succ_inv {sm : SM} {e : Nat} {type : AllocationType} {a : Nat}
    (h : (alloc sm e type).2 = some a) :
    mayAlloc (freeUnreferencedSegments sm e) type = true ∧
    (freeUnreferencedSegments sm e).freeSlots.getLast? = some a := by
  cases hm : mayAlloc (freeUnreferencedSegments sm e) type with
  | false =>
    exfalso
    rw [alloc_fail hm] at h
    simp at h
  | true =>
    cases hlast : (freeUnreferencedSegments sm e).freeSlots.getLast? with
    | none =>
      exfalso
      cases type <;> simp [alloc, hm, hlast] at h
    | some b =>
      have hba : b = a := by
        cases type <;> simpa [alloc, hm, hlast] using h
      subst hba
      exact ⟨rfl, rfl⟩

theorem alloc_succ {sm : SM} {e : Nat} {type : AllocationType} {a : Nat}
    (hm : mayAlloc (freeUnreferencedSegments sm e) type = true)
    (hlast : (freeUnreferencedSegments sm e).freeSlots.getLast? = some a) :
    (alloc sm e type).2 = some a ∧
    (∀ t, (alloc sm e type).1.segmentsByState t =
       if t = (if type = .ALLOC_SURVIVOR then SegState.CLEANING_INTO else SegState.HEAD)
       then (freeUnreferencedSegments sm e).segmentsByState
              (if type = .ALLOC_SURVIVOR then SegState.CLEANING_INTO else SegState.HEAD)
            ++ [a]
       else (freeUnreferencedSegments sm e).segmentsByState t) ∧
    (∀ j, j ≠ a →
       (alloc sm e type).1.segments j = (freeUnreferencedSegments sm e).segments j) ∧
    (∀ j, j ≠ a →
       (alloc sm e type).1.states j = (freeUnreferencedSegments sm e).states j) ∧
    (alloc sm e type).1.segments a = some
      { id := (freeUnreferencedSegments sm e).nextSegmentId
        slot := a
        isEmergencyHead := decide (type = .ALLOC_EMERGENCY_HEAD)
        cleanedEpoch := 0
        segletsAllocated := (freeUnreferencedSegments sm e).segletsPerSegment
        appendsDisabled := false } ∧
    (alloc sm e type).1.states a =
      some (if type = .ALLOC_SURVIVOR then SegState.CLEANING_INTO else SegState.HEAD) ∧
    (alloc sm e type).1.nextSegmentId = (freeUnreferencedSegments sm e).nextSegmentId + 1 ∧
    (alloc sm e type).1.logIteratorCount = sm.logIteratorCount ∧
    (alloc sm e type).1.freeSlots = (freeUnreferencedSegments sm e).freeSlots.dropLast ∧
    (alloc sm e type).1.allSegments = (freeUnreferencedSegments sm e).allSegments ++ [a] := by
  cases type <;>
    simp [alloc, hm, hlast, addToLists] <;>
    exact ⟨fun j h1 h2 => absurd h2 h1, fun j h1 h2 => absurd h2 h1⟩

theorem alloc_succ_Wf {sm : SM} {e : Nat} {type : AllocationType} {a : Nat}
    (hm : mayAlloc (freeUnreferencedSegments sm e) type = true)
    (hlast : (freeUnreferencedSegments sm e).freeSlots.getLast? = some a)
    (hW : Wf sm) : Wf (alloc sm e type).1 := by
  obtain ⟨-, hby, hsegne, hstne, hsega, hsta, -, -, hfs, hall⟩ := alloc_succ hm hlast
  have hWS : Wf (freeUnreferencedSegments sm e) := freeUnref_Wf e hW
  obtain ⟨hlists, hallnd, hallok, hfsnd, hfsok⟩ := hWS
  have hdecomp : (freeUnreferencedSegments sm e).freeSlots.dropLast ++ [a] =
      (freeUnreferencedSegments sm e).freeSlots :=
    List.dropLast_append_getLast? a hlast
  have hamem : a ∈ (freeUnreferencedSegments sm e).freeSlots := by
    rw [← hdecomp]
    simp
  have haseg : (freeUnreferencedSegments sm e).segments a = none := (hfsok a hamem).1
  have hanotlist : ∀ t, a ∉ (freeUnreferencedSegments sm e).segmentsByState t := by
    intro t hmem2
    have h2 := ((hlists t (mem_allSegStates t)).2 a hmem2).1
    rw [haseg] at h2
    simp at h2
  have hanotall : a ∉ (freeUnreferencedSegments sm e).allSegments := by
    intro hmem2
    have h2 := hallok a hmem2
    rw [haseg] at h2
    simp at h2
  have hdnd : ((freeUnreferencedSegments sm e).freeSlots.dropLast ++ [a]).Nodup := by
    rw [hdecomp]
    exact hfsnd
  rw [List.nodup_append] at hdnd
  obtain ⟨hdnd1, -, hdisj⟩ := hdnd
  have hdmem : ∀ m ∈ (freeUnreferencedSegments sm e).freeSlots.dropLast,
      m ∈ (freeUnreferencedSegments sm e).freeSlots ∧ m ≠ a := by
    intro m hm2
    refine ⟨by rw [← hdecomp]; exact List.mem_append_left _ hm2, ?_⟩
    intro he
    subst he
    exact hdisj hm2 (List.mem_singleton_self m)
  refine ⟨?_, ?_, ?_, ?_, ?_⟩
  · intro st _
    obtain ⟨hndst, hokst⟩ := hlists st (mem_allSegStates st)
    rw [listOk, hby st]
    by_cases hts : st = (if type = AllocationType.ALLOC_SURVIVOR then
      SegState.CLEANING_INTO else SegState.HEAD)
    · rw [if_pos hts]
      constructor
      · rw [List.nodup_append]
        refine ⟨(hlists _ (mem_allSegStates _)).1, List.nodup_singleton a, ?_⟩
        intro x hx hxa
        rw [List.mem_singleton] at hxa
        subst hxa
        exact hanotlist _ hx
      · intro m hm2
        rw [List.mem_append, List.mem_singleton] at hm2
        rcases hm2 with hm2 | hm2
        · have hmna : m ≠ a := by rintro rfl; exact hanotlist _ hm2
          rw [hsegne m hmna, hstne m hmna]
          subst hts
          exact (hlists _ (mem_allSegStates _)).2 m hm2
        · subst hm2
          rw [hsega, hsta, hts]
          exact ⟨rfl, rfl⟩
    · rw [if_neg hts]
      refine ⟨hndst, ?_⟩
      intro m hm2
      have hmna : m ≠ a := by rintro rfl; exact hanotlist _ hm2
      rw [hsegne m hmna, hstne m hmna]
      exact hokst m hm2
  · rw [hall, List.nodup_append]
    refine ⟨hallnd, List.nodup_singleton a, ?_⟩
    intro x hx hxa
    rw [List.mem_singleton] at hxa
    subst hxa
    exact hanotall hx
  · rw [hall]
    intro m hm2
    rw [List.mem_append, List.mem_singleton] at hm2
    rcases hm2 with hm2 | hm2
    · have hmna : m ≠ a := by rintro rfl; exact hanotall hm2
      rw [hsegne m hmna]
      exact hallok m hm2
    · subst hm2
      rw [hsega]
      rfl
  · rw [hfs]
    exact hdnd1
  · rw [hfs]
    intro m hm2
    obtain ⟨hmf, hmna⟩ := hdmem m hm2
    rw [hsegne m hmna, hstne m hmna]
    exact hfsok m hmf

@[simp] theorem scanFree_segletsPerSegment (e : Nat) (L : List Nat) (sm : SM) :
    (scanFree e L sm).segletsPerSegment = sm.segletsPerSegment := by
  induction L generalizing sm with
  | nil => rfl
  | cons a L ih => rw [scanFree, ih, scanStep_segletsPerSegment]

@[simp] theorem freeUnref_segletsPerSegment (sm : SM) (e : Nat) :
    (freeUnreferencedSegments sm e).segletsPerSegment = sm.segletsPerSegment := by
  rw [freeUnref_eq_scan]; simp

@[simp] theorem freeUnref_currentEpoch (sm : SM) (e : Nat) :
    (freeUnreferencedSegments sm e).currentEpoch = sm.currentEpoch := by
  rw [freeUnref_eq_scan]; simp

theorem idAt_eq_of_segments {sm' sm : SM} (h : sm'.segments = sm.segments) :
    idAt sm' = idAt sm := by
  funext j
  unfold idAt
  rw [h]

theorem idAt_congr {sm' sm : SM} {j : Nat} (h : sm'.segments j = sm.segments j) :
    idAt sm' j = idAt sm j := by
  unfold idAt
  rw [h]

theorem isEmergencyAt_congr {sm' sm : SM} {j : Nat}
    (h : sm'.segments j = sm.segments j) :
    isEmergencyAt sm' j = isEmergencyAt sm j := by
  unfold isEmergencyAt
  rw [h]

@[simp] theorem disableAppendsAt_byState (slot : Nat) (sm : SM) :
    (disableAppendsAt slot sm).segmentsByState = sm.segmentsByState := rfl

@[simp] theorem disableAppendsAt_states (slot : Nat) (sm : SM) :
    (disableAppendsAt slot sm).states = sm.states := rfl

@[simp] theorem disableAppendsAt_logIteratorCount (slot : Nat) (sm : SM) :
    (disableAppendsAt slot sm).logIteratorCount = sm.logIteratorCount := rfl

theorem disableAppendsAt_segments_ne {slot j : Nat} {sm : SM} (h : j ≠ slot) :
    (disableAppendsAt slot sm).segments j = sm.segments j := by
  simp [disableAppendsAt, h]

theorem disableAppendsAt_isEmergency (slot : Nat) (sm : SM) :
    isEmergencyAt (disableAppendsAt slot sm) slot = isEmergencyAt sm slot := by
  unfold isEmergencyAt disableAppendsAt
  simp only [if_pos, if_true]
  cases sm.segments slot <;> rfl

theorem free_segments_other {slot j : Nat} {sm : SM} (hne : j ≠ slot) :
    (free slot sm).segments j = sm.segments j := by
  cases heq : sm.segments slot with
  | none => rw [free_id heq]
  | some s => rw [free_segments_apply heq, if_neg hne]

theorem free_states_other {slot j : Nat} {sm : SM} (hne : j ≠ slot) :
    (free slot sm).states j = sm.states j := by
  cases heq : sm.segments slot with
  | none => rw [free_id heq]
  | some s => rw [free_states_apply heq, if_neg hne]

theorem postAlloc_alloc {sm : SM} {e : Nat} {type : AllocationType} {nh : Nat}
    (hW : Wf sm) (hty : type ≠ .ALLOC_SURVIVOR)
    (h2 : (alloc sm e type).2 = some nh) :
    PostAlloc sm (alloc sm e type).1 nh (decide (type = .ALLOC_EMERGENCY_HEAD)) := by
  obtain ⟨hm, hlast⟩ := alloc_succ_inv h2
  obtain ⟨-, hby, hsegne, hstne, hsega, hsta, hnext, hcnt, hfs, hall⟩ :=
    alloc_succ hm hlast
  have hWS : Wf (freeUnreferencedSegments sm e) := freeUnref_Wf e hW
  have hstNew : (if type = AllocationType.ALLOC_SURVIVOR then SegState.CLEANING_INTO
      else SegState.HEAD) = SegState.HEAD := if_neg hty
  have hamem : nh ∈ (freeUnreferencedSegments sm e).freeSlots := by
    have hd := List.dropLast_append_getLast? nh hlast
    rw [← hd]
    simp
  have hanone : (freeUnreferencedSegments sm e).segments nh = none :=
    (hWS.2.2.2.2 nh hamem).1
  refine ⟨alloc_succ_Wf hm hlast hW, hcnt, by rw [hnext]; simp, ?_, ?_, ?_, ?_⟩
  · intro t ht1 ht2
    rw [hby t, hstNew, if_neg ht1]
    exact freeUnref_byState_ne e hW ht2
  · rw [hby _, hstNew, if_pos rfl, freeUnref_byState_ne e hW (by decide)]
  · rw [hsega]
    simp
  · intro j t hjt htne hjs
    have hnotfpr : j ∉ sm.segmentsByState .FREEABLE_PENDING_REFERENCES := by
      intro hmem
      have h3 := ((wf_listOk hW _).2 j hmem).2
      rw [hjt] at h3
      injection h3 with h4
      exact htne h4
    have hSseg : (freeUnreferencedSegments sm e).segments j = sm.segments j :=
      freeUnref_segments_not_mem hnotfpr
    have hSst : (freeUnreferencedSegments sm e).states j = sm.states j :=
      freeUnref_states_not_mem hnotfpr
    have hjnh : j ≠ nh := by
      intro he
      subst he
      rw [hSseg] at hanone
      rw [hanone] at hjs
      simp at hjs
    exact ⟨hjnh, by rw [hsegne j hjnh, hSseg], by rw [hstne j hjnh, hSst]⟩

theorem postAlloc_trans {sm A : SM} {e nh : Nat} {emer : Bool} (hW : Wf sm)
    (h : PostAlloc (freeUnreferencedSegments sm e) A nh emer) :
    PostAlloc sm A nh emer := by
  obtain ⟨hWA, hcnt, hnext, hoth, hhead, hsegnh, hframe⟩ := h
  refine ⟨hWA, by rw [hcnt]; simp, by rw [hnext]; simp, ?_, ?_, ?_, ?_⟩
  · intro t ht1 ht2
    rw [hoth t ht1 ht2]
    exact freeUnref_byState_ne e hW ht2
  · rw [hhead, freeUnref_byState_ne e hW (by decide)]
  · rw [hsegnh]
    simp
  · intro j t hjt htne hjs
    have hnotfpr : j ∉ sm.segmentsByState .FREEABLE_PENDING_REFERENCES := by
      intro hmem
      have h3 := ((wf_listOk hW _).2 j hmem).2
      rw [hjt] at h3
      injection h3 with h4
      exact htne h4
    have hSseg : (freeUnreferencedSegments sm e).segments j = sm.segments j :=
      freeUnref_segments_not_mem hnotfpr
    have hSst : (freeUnreferencedSegments sm e).states j = sm.states j :=
      freeUnref_states_not_mem hnotfpr
    obtain ⟨hjnh, hAseg, hAst⟩ := hframe j t (by rw [hSst]; exact hjt) htne
      (by rw [hSseg]; exact hjs)
    exact ⟨hjnh, by rw [hAseg, hSseg], by rw [hAst, hSst]⟩

theorem allocHeadFinish_snd (A : SM) (prev : Option Nat) (nh : Nat) :
    (allocHeadFinish A prev nh).2 =
      some (nh, (writeDigest A nh
        (match prev with
         | some p => if isEmergencyAt A p then none else some p
         | none => none)).2) := rfl

theorem allocHead_succ_path {sm : SM} {e : Nat} {mnf : Bool} {nh : Nat} {d : List Nat}
    (hW : Wf sm) (h : (allocHead sm e mnf).2 = some (nh, d)) :
    ∃ A emer, PostAlloc sm A nh emer ∧
      allocHead sm e mnf = allocHeadFinish A (getHeadSegment sm) nh := by
  cases h2 : (alloc sm e .ALLOC_HEAD).2 with
  | some nh0 =>
    have heq : allocHead sm e mnf =
        allocHeadFinish (alloc sm e .ALLOC_HEAD).1 (getHeadSegment sm) nh0 := by
      simp [allocHead, h2]
    have hnh : nh0 = nh := by
      rw [heq, allocHeadFinish_snd] at h
      simp at h
      exact h.1
    subst hnh
    exact ⟨(alloc sm e .ALLOC_HEAD).1, false,
      postAlloc_alloc hW (by decide) h2, heq⟩
  | none =>
    by_cases hcond : (mnf ||
        !((alloc sm e .ALLOC_HEAD).1.segmentsByState
            .FREEABLE_PENDING_DIGEST_AND_REFERENCES).isEmpty) = true
    · cases h3 : (alloc (alloc sm e .ALLOC_HEAD).1 e .ALLOC_EMERGENCY_HEAD).2 with
      | some nh0 =>
        have heq : allocHead sm e mnf =
            allocHeadFinish (alloc (alloc sm e .ALLOC_HEAD).1 e
              .ALLOC_EMERGENCY_HEAD).1 (getHeadSegment sm) nh0 := by
          simp [allocHead, h2, hcond, h3]
        have hnh : nh0 = nh := by
          rw [heq, allocHeadFinish_snd] at h
          simp at h
          exact h.1
        subst hnh
        have har1 := alloc_none_fst h2
        have hpa := @postAlloc_alloc (alloc sm e .ALLOC_HEAD).1 e
          .ALLOC_EMERGENCY_HEAD nh0
          (by rw [har1]; exact freeUnref_Wf e hW) (by decide) h3
        rw [har1] at hpa heq
        exact ⟨_, true, postAlloc_trans hW hpa, heq⟩
      | none =>
        exfalso
        have : (allocHead sm e mnf).2 = none := by
          simp [allocHead, h2, hcond, h3]
        rw [this] at h
        cases h
    · exfalso
      have : (allocHead sm e mnf).2 = none := by
        simp only [allocHead, h2]
        rw [if_neg hcond]
      rw [this] at h
      cases h

theorem allocHead_none_path {sm : SM} {e : Nat} {mnf : Bool}
    (h : (allocHead sm e mnf).2 = none) :
    (allocHead sm e mnf).1 = freeUnreferencedSegments sm e ∨
    (allocHead sm e mnf).1 =
      freeUnreferencedSegments (freeUnreferencedSegments sm e) e := by
  cases h2 : (alloc sm e .ALLOC_HEAD).2 with
  | some nh0 =>
    exfalso
    have heq : allocHead sm e mnf =
        allocHeadFinish (alloc sm e .ALLOC_HEAD).1 (getHeadSegment sm) nh0 := by
      simp [allocHead, h2]
    rw [heq, allocHeadFinish_snd] at h
    cases h
  | none =>
    have har1 := alloc_none_fst h2
    by_cases hcond : (mnf ||
        !((alloc sm e .ALLOC_HEAD).1.segmentsByState
            .FREEABLE_PENDING_DIGEST_AND_REFERENCES).isEmpty) = true
    · cases h3 : (alloc (alloc sm e .ALLOC_HEAD).1 e .ALLOC_EMERGENCY_HEAD).2 with
      | some nh0 =>
        exfalso
        have heq : allocHead sm e mnf =
            allocHeadFinish (alloc (alloc sm e .ALLOC_HEAD).1 e
              .ALLOC_EMERGENCY_HEAD).1 (getHeadSegment sm) nh0 := by
          simp [allocHead, h2, hcond, h3]
        rw [heq, allocHeadFinish_snd] at h
        cases h
      | none =>
        right
        have heq : (allocHead sm e mnf).1 =
            (alloc (alloc sm e .ALLOC_HEAD).1 e .ALLOC_EMERGENCY_HEAD).1 := by
          simp [allocHead, h2, hcond, h3]
        rw [heq, alloc_none_fst h3, har1]
    · left
      have heq : (allocHead sm e mnf).1 = (alloc sm e .ALLOC_HEAD).1 := by
        simp only [allocHead, h2]
        rw [if_neg hcond]
      rw [heq, har1]

theorem writeDigest_iter {sm : SM} {nh : Nat} {ph : Option Nat}
    (h : sm.logIteratorCount ≠ 0) :
    (writeDigest sm nh ph).1 = sm ∧
    (writeDigest sm nh ph).2 =
      (sm.segmentsByState .CLEANABLE).map (idAt sm) ++
      (sm.segmentsByState .NEWLY_CLEANABLE).map (idAt sm) ++
      (match ph with | some p => [idAt sm p] | none => []) ++
      [idAt sm nh] ++
      (sm.segmentsByState .FREEABLE_PENDING_DIGEST_AND_REFERENCES).map (idAt sm) := by
  unfold writeDigest
  rw [if_neg h, if_neg h]
  exact ⟨rfl, rfl⟩

theorem writeDigest_noiter {sm : SM} {nh : Nat} {ph : Option Nat} (hW : Wf sm)
    (h : sm.logIteratorCount = 0) :
    (writeDigest sm nh ph).2 =
      (sm.segmentsByState .CLEANABLE).map (idAt sm) ++
      ((sm.segmentsByState .NEWLY_CLEANABLE).map (idAt sm) ++
       (sm.segmentsByState .CLEANABLE_PENDING_DIGEST).map (idAt sm)) ++
      (match ph with | some p => [idAt sm p] | none => []) ++
      [idAt sm nh] ∧
    (writeDigest sm nh ph).1.segments = sm.segments ∧
    (∀ t, t ≠ SegState.CLEANABLE_PENDING_DIGEST → t ≠ SegState.NEWLY_CLEANABLE →
       t ≠ SegState.FREEABLE_PENDING_DIGEST_AND_REFERENCES →
       t ≠ SegState.FREEABLE_PENDING_REFERENCES →
       (writeDigest sm nh ph).1.segmentsByState t = sm.segmentsByState t) ∧
    (writeDigest sm nh ph).1.segmentsByState .CLEANABLE_PENDING_DIGEST = [] ∧
    (writeDigest sm nh ph).1.segmentsByState .NEWLY_CLEANABLE =
      sm.segmentsByState .NEWLY_CLEANABLE ++
        sm.segmentsByState .CLEANABLE_PENDING_DIGEST ∧
    (writeDigest sm nh ph).1.segmentsByState
        .FREEABLE_PENDING_DIGEST_AND_REFERENCES = [] ∧
    (writeDigest sm nh ph).1.segmentsByState .FREEABLE_PENDING_REFERENCES =
      sm.segmentsByState .FREEABLE_PENDING_REFERENCES ++
        sm.segmentsByState .FREEABLE_PENDING_DIGEST_AND_REFERENCES ∧
    (∀ j, j ∉ sm.segmentsByState .CLEANABLE_PENDING_DIGEST →
       j ∉ sm.segmentsByState .FREEABLE_PENDING_DIGEST_AND_REFERENCES →
       (writeDigest sm nh ph).1.states j = sm.states j) := by
  obtain ⟨hnd1, hok1⟩ := wf_listOk hW .CLEANABLE_PENDING_DIGEST
  obtain ⟨hndF, hokF⟩ := wf_listOk hW .FREEABLE_PENDING_DIGEST_AND_REFERENCES
  have hne1 : SegState.CLEANABLE_PENDING_DIGEST ≠ SegState.NEWLY_CLEANABLE := by
    decide
  have hne2 : SegState.FREEABLE_PENDING_DIGEST_AND_REFERENCES ≠
      SegState.FREEABLE_PENDING_REFERENCES := by decide
  obtain ⟨hd1src, hd1dst, hd1oth⟩ :=
    @drainGo_lists SegState.NEWLY_CLEANABLE _ _ _ hne1 hnd1
      (fun m hm => (hok1 m hm).2) rfl
  have hD1seg : (drainState sm .CLEANABLE_PENDING_DIGEST .NEWLY_CLEANABLE).segments =
      sm.segments := by
    unfold drainState
    simp
  have hFPDARmem_not_cpd : ∀ m ∈
      sm.segmentsByState .FREEABLE_PENDING_DIGEST_AND_REFERENCES,
      m ∉ sm.segmentsByState .CLEANABLE_PENDING_DIGEST := by
    intro m hm hmem
    have ha := (hok1 m hmem).2
    have hb := (hokF m hm).2
    rw [ha] at hb
    simp at hb
  have hD1F : (drainState sm .CLEANABLE_PENDING_DIGEST
      .NEWLY_CLEANABLE).segmentsByState .FREEABLE_PENDING_DIGEST_AND_REFERENCES =
      sm.segmentsByState .FREEABLE_PENDING_DIGEST_AND_REFERENCES :=
    hd1oth _ (by decide) (by decide)
  have hokF1 : ∀ m ∈ (drainState sm .CLEANABLE_PENDING_DIGEST
      .NEWLY_CLEANABLE).segmentsByState .FREEABLE_PENDING_DIGEST_AND_REFERENCES,
      (drainState sm .CLEANABLE_PENDING_DIGEST .NEWLY_CLEANABLE).states m =
        some .FREEABLE_PENDING_DIGEST_AND_REFERENCES := by
    rw [hD1F]
    intro m hm
    unfold drainState
    rw [drainGo_states_not_mem (hFPDARmem_not_cpd m hm)]
    exact (hokF m hm).2
  have hndF1 : ((drainState sm .CLEANABLE_PENDING_DIGEST
      .NEWLY_CLEANABLE).segmentsByState
        .FREEABLE_PENDING_DIGEST_AND_REFERENCES).Nodup := by
    rw [hD1F]
    exact hndF
  obtain ⟨hd2src, hd2dst, hd2oth⟩ :=
    @drainGo_lists SegState.FREEABLE_PENDING_REFERENCES _ _ _ hne2 hndF1
      hokF1 rfl
  have hcnt1 : (drainState sm .CLEANABLE_PENDING_DIGEST
      .NEWLY_CLEANABLE).logIteratorCount = 0 := by
    unfold drainState
    simp [h]
  unfold writeDigest
  rw [if_pos h, if_pos hcnt1]
  simp only
  refine ⟨?_, ?_, ?_, ?_, ?_, ?_, ?_, ?_⟩
  · rw [idAt_eq_of_segments hD1seg]
    rw [show (drainState sm .CLEANABLE_PENDING_DIGEST
      .NEWLY_CLEANABLE).segmentsByState .CLEANABLE = sm.segmentsByState .CLEANABLE
      from hd1oth _ (by decide) (by decide)]
    rw [show (drainState sm .CLEANABLE_PENDING_DIGEST
      .NEWLY_CLEANABLE).segmentsByState .NEWLY_CLEANABLE =
      sm.segmentsByState .NEWLY_CLEANABLE ++
        sm.segmentsByState .CLEANABLE_PENDING_DIGEST from hd1dst]
    rw [List.map_append]
  · unfold drainState at *
    simp [hD1seg]
  · intro t ht1 ht2 ht3 ht4
    unfold drainState at *
    rw [hd2oth t ht3 ht4, hd1oth t ht1 ht2]
  · unfold drainState at *
    rw [hd2oth _ (by decide) (by decide), hd1src]
  · unfold drainState at *
    rw [hd2oth _ (by decide) (by decide), hd1dst]
  · unfold drainState at *
    exact hd2src
  · unfold drainState at *
    rw [hd2dst, hD1F, hd1oth _ (by decide) (by decide)]
  · intro j hj1 hj2
    unfold drainState at *
    rw [drainGo_states_not_mem (by rw [hD1F]; exact hj2),
      drainGo_states_not_mem hj1]


theorem isEmergencyAt_of_eq_some {X : SM} {j : Nat} {s : LogSegment}
    (h : X.segments j = some s) : isEmergencyAt X j = s.isEmergencyHead := by
  unfold isEmergencyAt
  rw [h]

theorem allocHeadFinish_main {sm A : SM} {nh : Nat} {emer : Bool}
    (hW : Wf sm) (hPA : PostAlloc sm A nh emer) :
    (∃ d, (allocHeadFinish A (getHeadSegment sm) nh).2 = some (nh, d) ∧
      (sm.logIteratorCount = 0 →
        d = (sm.segmentsByState .CLEANABLE).map (idAt sm) ++
            ((sm.segmentsByState .NEWLY_CLEANABLE).map (idAt sm) ++
             (sm.segmentsByState .CLEANABLE_PENDING_DIGEST).map (idAt sm)) ++
            prevDigestPart sm ++ [sm.nextSegmentId]) ∧
      (sm.logIteratorCount ≠ 0 →
        d = (sm.segmentsByState .CLEANABLE).map (idAt sm) ++
            (sm.segmentsByState .NEWLY_CLEANABLE).map (idAt sm) ++
            prevDigestPart sm ++ [sm.nextSegmentId] ++
            (sm.segmentsByState
              .FREEABLE_PENDING_DIGEST_AND_REFERENCES).map (idAt sm))) ∧
    isEmergencyAt (allocHeadFinish A (getHeadSegment sm) nh).1 nh = emer := by
  obtain ⟨hWA, hcnt, hnext, hoth, hhead, hsegnh, hframe⟩ := hPA
  have hmap : ∀ t : SegState, t ≠ SegState.HEAD →
      t ≠ SegState.FREEABLE_PENDING_REFERENCES →
      (A.segmentsByState t).map (idAt A) = (sm.segmentsByState t).map (idAt sm) := by
    intro t ht1 ht2
    rw [hoth t ht1 ht2]
    apply List.map_congr_left
    intro m hm
    obtain ⟨hms, hmst⟩ := (wf_listOk hW t).2 m hm
    exact idAt_congr (hframe m t hmst ht2 hms).2.1
  have hidnh : idAt A nh = sm.nextSegmentId := by
    unfold idAt
    rw [hsegnh]
  cases hp : getHeadSegment sm with
  | none =>
    have hpdp : prevDigestPart sm = [] := by
      unfold prevDigestPart
      rw [hp]
    have hsdseg : (writeDigest A nh none).1.segments nh = A.segments nh := by
      by_cases hc : A.logIteratorCount = 0
      · rw [(@writeDigest_noiter A nh none hWA hc).2.1]
      · rw [(@writeDigest_iter A nh none hc).1]
    have hE : isEmergencyAt (writeDigest A nh none).1 nh = emer := by
      unfold isEmergencyAt
      rw [hsdseg, hsegnh]
    refine ⟨⟨(writeDigest A nh none).2, rfl, ?_, ?_⟩, ?_⟩
    · intro hc
      have hA0 : A.logIteratorCount = 0 := by rw [hcnt]; exact hc
      have hwd := (@writeDigest_noiter A nh none hWA hA0).1
      rw [hwd, hmap _ (by decide) (by decide), hmap _ (by decide) (by decide),
        hmap _ (by decide) (by decide), hidnh, hpdp]
    · intro hc
      have hA0 : A.logIteratorCount ≠ 0 := by rw [hcnt]; exact hc
      have hwd := (@writeDigest_iter A nh none hA0).2
      rw [hwd, hmap _ (by decide) (by decide), hmap _ (by decide) (by decide),
        hmap _ (by decide) (by decide), hidnh, hpdp]
    · have hfst : (allocHeadFinish A none nh).1 =
          (if isEmergencyAt (writeDigest A nh none).1 nh then
             disableAppendsAt nh (writeDigest A nh none).1
           else (writeDigest A nh none).1) := rfl
      rw [hfst]
      by_cases hE2 : isEmergencyAt (writeDigest A nh none).1 nh = true
      · rw [if_pos hE2, disableAppendsAt_isEmergency]
        exact hE
      · rw [if_neg hE2]
        exact hE
  | some p =>
    have hmem : p ∈ sm.segmentsByState SegState.HEAD := by
      have hcons := List.eq_cons_of_mem_head?
        (show p ∈ (sm.segmentsByState SegState.HEAD).head? from hp)
      rw [hcons]
      exact List.mem_cons_self _ _
    obtain ⟨hps, hpst⟩ := (wf_listOk hW SegState.HEAD).2 p hmem
    obtain ⟨hpne, hpseg, hpstA⟩ := hframe p SegState.HEAD hpst (by decide) hps
    have hie : isEmergencyAt A p = isEmergencyAt sm p := isEmergencyAt_congr hpseg
    have hpp : (match (if isEmergencyAt A p then none else some p : Option Nat) with
        | some q => [idAt A q]
        | none => ([] : List Nat)) = prevDigestPart sm := by
      unfold prevDigestPart
      rw [hp, hie]
      by_cases hb : isEmergencyAt sm p = true
      · simp [hb]
      · rw [Bool.not_eq_true] at hb
        simp [hb, idAt_congr hpseg]
    have hsdseg : (writeDigest A nh
        (if isEmergencyAt A p then none else some p)).1.segments nh =
        A.segments nh := by
      by_cases hc : A.logIteratorCount = 0
      · rw [(@writeDigest_noiter A nh
          (if isEmergencyAt A p then none else some p) hWA hc).2.1]
      · rw [(@writeDigest_iter A nh
          (if isEmergencyAt A p then none else some p) hc).1]
    have hE : isEmergencyAt (writeDigest A nh
        (if isEmergencyAt A p then none else some p)).1 nh = emer := by
      rw [isEmergencyAt_congr hsdseg, isEmergencyAt_of_eq_some hsegnh]
    refine ⟨⟨(writeDigest A nh (if isEmergencyAt A p then none else some p)).2,
      rfl, ?_, ?_⟩, ?_⟩
    · intro hc
      have hA0 : A.logIteratorCount = 0 := by rw [hcnt]; exact hc
      have hwd := (@writeDigest_noiter A nh
        (if isEmergencyAt A p then none else some p) hWA hA0).1
      rw [hwd, hmap _ (by decide) (by decide), hmap _ (by decide) (by decide),
        hmap _ (by decide) (by decide), hidnh, hpp]
    · intro hc
      have hA0 : A.logIteratorCount ≠ 0 := by rw [hcnt]; exact hc
      have hwd := (@writeDigest_iter A nh
        (if isEmergencyAt A p then none else some p) hA0).2
      rw [hwd, hmap _ (by decide) (by decide), hmap _ (by decide) (by decide),
        hmap _ (by decide) (by decide), hidnh, hpp]
    · have hfst : (allocHeadFinish A (some p) nh).1 =
          (if isEmergencyAt
              (if isEmergencyAt (writeDigest A nh
                  (if isEmergencyAt A p then none else some p)).1 nh then
                disableAppendsAt nh (writeDigest A nh
                  (if isEmergencyAt A p then none else some p)).1
              else (writeDigest A nh
                  (if isEmergencyAt A p then none else some p)).1) p then
            free p (if isEmergencyAt (writeDigest A nh
                  (if isEmergencyAt A p then none else some p)).1 nh then
                disableAppendsAt nh (writeDigest A nh
                  (if isEmergencyAt A p then none else some p)).1
              else (writeDigest A nh
                  (if isEmergencyAt A p then none else some p)).1)
          else changeState p SegState.NEWLY_CLEANABLE
            (if isEmergencyAt (writeDigest A nh
                  (if isEmergencyAt A p then none else some p)).1 nh then
                disableAppendsAt nh (writeDigest A nh
                  (if isEmergencyAt A p then none else some p)).1
              else (writeDigest A nh
                  (if isEmergencyAt A p then none else some p)).1)) := rfl
      have hsm3segnh : ∃ s', (if isEmergencyAt (writeDigest A nh
            (if isEmergencyAt A p then none else some p)).1 nh then
          disableAppendsAt nh (writeDigest A nh
            (if isEmergencyAt A p then none else some p)).1
        else (writeDigest A nh
            (if isEmergencyAt A p then none else some p)).1).segments nh =
          some s' ∧ s'.isEmergencyHead = emer := by
        by_cases hE2 : isEmergencyAt (writeDigest A nh
            (if isEmergencyAt A p then none else some p)).1 nh = true
        · rw [if_pos hE2]
          unfold disableAppendsAt
          simp only [if_pos, if_true]
          rw [hsdseg, hsegnh]
          exact ⟨_, rfl, rfl⟩
        · rw [if_neg hE2, hsdseg, hsegnh]
          exact ⟨_, rfl, rfl⟩
      obtain ⟨s3, hs3, hs3e⟩ := hsm3segnh
      rw [hfst]
      by_cases hpe : isEmergencyAt (if isEmergencyAt (writeDigest A nh
            (if isEmergencyAt A p then none else some p)).1 nh then
          disableAppendsAt nh (writeDigest A nh
            (if isEmergencyAt A p then none else some p)).1
        else (writeDigest A nh
            (if isEmergencyAt A p then none else some p)).1) p = true
      · rw [if_pos hpe]
        rw [isEmergencyAt_congr (free_segments_other (Ne.symm hpne)),
          isEmergencyAt_of_eq_some hs3]
        exact hs3e
      · rw [if_neg hpe]
        have hcs : (changeState p SegState.NEWLY_CLEANABLE
            (if isEmergencyAt (writeDigest A nh
                (if isEmergencyAt A p then none else some p)).1 nh then
              disableAppendsAt nh (writeDigest A nh
                (if isEmergencyAt A p then none else some p)).1
            else (writeDigest A nh
                (if isEmergencyAt A p then none else some p)).1)).segments nh =
            (if isEmergencyAt (writeDigest A nh
                (if isEmergencyAt A p then none else some p)).1 nh then
              disableAppendsAt nh (writeDigest A nh
                (if isEmergencyAt A p then none else some p)).1
            else (writeDigest A nh
                (if isEmergencyAt A p then none else some p)).1).segments nh := by
          rw [changeState_segments]
        rw [isEmergencyAt_congr hcs, isEmergencyAt_of_eq_some hs3]
        exact hs3e

theorem allocHeadFinish_head {sm A : SM} {nh : Nat} {emer : Bool}
    (hW : Wf sm) (hPA : PostAlloc sm A nh emer)
    (hHead : sm.segmentsByState SegState.HEAD = [] ∨
      ∃ p, sm.segmentsByState SegState.HEAD = [p]) :
    (allocHeadFinish A (getHeadSegment sm) nh).1.segmentsByState SegState.HEAD =
      [nh] ∧
    (∀ p, getHeadSegment sm = some p →
      (isEmergencyAt sm p = true →
        (allocHeadFinish A (getHeadSegment sm) nh).1.segments p = none) ∧
      (isEmergencyAt sm p = false →
        (allocHeadFinish A (getHeadSegment sm) nh).1.states p =
          some SegState.NEWLY_CLEANABLE)) := by
  obtain ⟨hWA, hcnt, hnext, hoth, hhead, hsegnh, hframe⟩ := hPA
  rcases hHead with hH0 | ⟨p0, hH1⟩
  · have hp : getHeadSegment sm = none := by
      unfold getHeadSegment
      rw [hH0]
      rfl
    rw [hp]
    constructor
    · have hsdby : (writeDigest A nh none).1.segmentsByState SegState.HEAD =
          A.segmentsByState SegState.HEAD := by
        by_cases hc : A.logIteratorCount = 0
        · exact (@writeDigest_noiter A nh none hWA hc).2.2.1 _
            (by decide) (by decide) (by decide) (by decide)
        · rw [(@writeDigest_iter A nh none hc).1]
      have hfst : (allocHeadFinish A none nh).1 =
          (if isEmergencyAt (writeDigest A nh none).1 nh then
             disableAppendsAt nh (writeDigest A nh none).1
           else (writeDigest A nh none).1) := rfl
      rw [hfst]
      by_cases hE2 : isEmergencyAt (writeDigest A nh none).1 nh = true
      · rw [if_pos hE2, disableAppendsAt_byState, hsdby, hhead, hH0]
        rfl
      · rw [if_neg hE2, hsdby, hhead, hH0]
        rfl
    · intro p hp2
      exact Option.noConfusion hp2
  · have hp : getHeadSegment sm = some p0 := by
      unfold getHeadSegment
      rw [hH1]
      rfl
    rw [hp]
    have hmem : p0 ∈ sm.segmentsByState SegState.HEAD := by
      rw [hH1]
      exact List.mem_cons_self _ _
    obtain ⟨hps, hpst⟩ := (wf_listOk hW SegState.HEAD).2 p0 hmem
    obtain ⟨hpne, hpseg, hpstA⟩ := hframe p0 SegState.HEAD hpst (by decide) hps
    have hApstA : A.states p0 = some SegState.HEAD := by
      rw [hpstA]
      exact hpst
    have hnotCPD : p0 ∉ A.segmentsByState SegState.CLEANABLE_PENDING_DIGEST := by
      intro hmem2
      have h2 := ((wf_listOk hWA _).2 p0 hmem2).2
      rw [hApstA] at h2
      simp at h2
    have hnotFPDAR : p0 ∉ A.segmentsByState
        SegState.FREEABLE_PENDING_DIGEST_AND_REFERENCES := by
      intro hmem2
      have h2 := ((wf_listOk hWA _).2 p0 hmem2).2
      rw [hApstA] at h2
      simp at h2
    set ph := (if isEmergencyAt A p0 then none else some p0 : Option Nat) with hph
    have hsdsegf : (writeDigest A nh ph).1.segments = A.segments := by
      by_cases hc : A.logIteratorCount = 0
      · exact (writeDigest_noiter hWA hc).2.1
      · rw [(writeDigest_iter hc).1]
    have hsdst : (writeDigest A nh ph).1.states p0 = A.states p0 := by
      by_cases hc : A.logIteratorCount = 0
      · exact (writeDigest_noiter hWA hc).2.2.2.2.2.2.2 p0 hnotCPD hnotFPDAR
      · rw [(writeDigest_iter hc).1]
    have hsdby : (writeDigest A nh ph).1.segmentsByState SegState.HEAD =
        A.segmentsByState SegState.HEAD := by
      by_cases hc : A.logIteratorCount = 0
      · exact (writeDigest_noiter hWA hc).2.2.1 _
          (by decide) (by decide) (by decide) (by decide)
      · rw [(writeDigest_iter hc).1]
    set SD1 := (writeDigest A nh ph).1 with hSD1
    set SM3 := (if isEmergencyAt SD1 nh then disableAppendsAt nh SD1 else SD1)
      with hSM3
    have hfst : (allocHeadFinish A (some p0) nh).1 =
        (if isEmergencyAt SM3 p0 then free p0 SM3
         else changeState p0 SegState.NEWLY_CLEANABLE SM3) := rfl
    have hSM3segp : SM3.segments p0 = sm.segments p0 := by
      rw [hSM3]
      by_cases hE2 : isEmergencyAt SD1 nh = true
      · rw [if_pos hE2, disableAppendsAt_segments_ne hpne,
          congrFun hsdsegf p0, hpseg]
      · rw [if_neg hE2, congrFun hsdsegf p0, hpseg]
    have hSM3stp : SM3.states p0 = some SegState.HEAD := by
      rw [hSM3]
      by_cases hE2 : isEmergencyAt SD1 nh = true
      · rw [if_pos hE2]
        rw [show (disableAppendsAt nh SD1).states = SD1.states from rfl]
        rw [hsdst, hApstA]
      · rw [if_neg hE2, hsdst, hApstA]
    have hSM3by : SM3.segmentsByState SegState.HEAD =
        sm.segmentsByState SegState.HEAD ++ [nh] := by
      rw [hSM3]
      by_cases hE2 : isEmergencyAt SD1 nh = true
      · rw [if_pos hE2, disableAppendsAt_byState, hsdby, hhead]
      · rw [if_neg hE2, hsdby, hhead]
    have hEm3 : isEmergencyAt SM3 p0 = isEmergencyAt sm p0 :=
      isEmergencyAt_congr hSM3segp
    obtain ⟨sp, hsp⟩ : ∃ s, SM3.segments p0 = some s := by
      rw [hSM3segp]
      exact Option.isSome_iff_exists.1 hps
    rw [hfst]
    constructor
    · by_cases hpe : isEmergencyAt sm p0 = true
      · rw [if_pos (by rw [hEm3]; exact hpe)]
        rw [free_byState_apply hsp hSM3stp SegState.HEAD, if_pos rfl, hSM3by, hH1]
        simp
      · rw [if_neg (by rw [hEm3]; exact hpe)]
        rw [changeState_byState_apply hSM3stp (by decide) SegState.HEAD,
          if_pos rfl, hSM3by, hH1]
        simp
    · intro p hp2
      injection hp2 with hp2
      subst hp2
      constructor
      · intro hpe
        rw [if_pos (by rw [hEm3]; exact hpe)]
        rw [free_segments_apply hsp, if_pos rfl]
      · intro hpe
        rw [if_neg (by rw [hEm3, hpe]; simp)]
        rw [changeState_states_apply, if_pos rfl]

theorem mem_prevDigestPart {sm : SM} {i : Nat} :
    i ∈ prevDigestPart sm ↔
      ∃ p, getHeadSegment sm = some p ∧ isEmergencyAt sm p = false ∧
        i = idAt sm p := by
  unfold prevDigestPart
  cases hp : getHeadSegment sm with
  | none => simp
  | some p =>
    by_cases hb : isEmergencyAt sm p = true
    · simp [hb]
    · rw [Bool.not_eq_true] at hb
      simp [hb]

theorem prevDigestPart_sublist (sm : SM) :
    List.Sublist (prevDigestPart sm)
      ((sm.segmentsByState SegState.HEAD).map (idAt sm)) := by
  unfold prevDigestPart
  cases hp : getHeadSegment sm with
  | none => exact List.nil_sublist _
  | some p =>
    show (if isEmergencyAt sm p = true then ([] : List Nat)
      else [idAt sm p]).Sublist
        ((sm.segmentsByState SegState.HEAD).map (idAt sm))
    by_cases hb : isEmergencyAt sm p = true
    · rw [if_pos hb]
      exact List.nil_sublist _
    · rw [if_neg hb]
      refine List.singleton_sublist.2 (List.mem_map_of_mem _ ?_)
      have hcons := List.eq_cons_of_mem_head?
        (show p ∈ (sm.segmentsByState SegState.HEAD).head? from hp)
      rw [hcons]
      exact List.mem_cons_self _ _

/-- C1: the digest written by a successful `allocHead` has no duplicate ids
and holds exactly: every `CLEANABLE` id, every `NEWLY_CLEANABLE` id, every
`CLEANABLE_PENDING_DIGEST` id when no iterator is active (those segments are
moved to `NEWLY_CLEANABLE` by this same digest write), the previous head's id
when a previous head exists and is non-emergency, the new head's own id
(`nextSegmentId`), and, only when an iterator is active, every id still in
`FREEABLE_PENDING_DIGEST_AND_REFERENCES`. -/
theorem allocHead_digest_spec (sm : SM) (e : Nat) (mnf : Bool) (nh : Nat)
    (d : List Nat) (hW : Wf sm) (hids : idsOk sm)
    (hsucc : (allocHead sm e mnf).2 = some (nh, d)) :
    d.Nodup ∧
    (∀ i, i ∈ d ↔
      (i ∈ (sm.segmentsByState SegState.CLEANABLE).map (idAt sm) ∨
       i ∈ (sm.segmentsByState SegState.NEWLY_CLEANABLE).map (idAt sm) ∨
       (sm.logIteratorCount = 0 ∧
        i ∈ (sm.segmentsByState SegState.CLEANABLE_PENDING_DIGEST).map (idAt sm)) ∨
       (∃ p, getHeadSegment sm = some p ∧ isEmergencyAt sm p = false ∧
         i = idAt sm p) ∨
       i = sm.nextSegmentId ∨
       (sm.logIteratorCount ≠ 0 ∧
        i ∈ (sm.segmentsByState
          SegState.FREEABLE_PENDING_DIGEST_AND_REFERENCES).map (idAt sm)))) := by
  obtain ⟨A, emer, hPA, heq⟩ := allocHead_succ_path hW hsucc
  obtain ⟨⟨d0, hsnd, hd0, hd1⟩, -⟩ := allocHeadFinish_main hW hPA
  rw [heq, hsnd] at hsucc
  have hdd : d0 = d := by
    have h1 : some (nh, d0) = some (nh, d) := hsucc
    simpa using h1
  subst hdd
  have hids2 := hids
  unfold idsOk digestPool at hids2
  constructor
  · by_cases hc : sm.logIteratorCount = 0
    · rw [hd0 hc]
      refine List.Nodup.sublist ?_ hids2
      simp only [List.append_assoc] at *
      refine List.Sublist.append (List.Sublist.refl _) ?_
      refine List.Sublist.append (List.Sublist.refl _) ?_
      refine List.Sublist.append (List.Sublist.refl _) ?_
      exact List.Sublist.append (prevDigestPart_sublist sm)
        (List.sublist_append_left _ _)
    · rw [hd1 hc]
      refine List.Nodup.sublist ?_ hids2
      simp only [List.append_assoc] at *
      refine List.Sublist.append (List.Sublist.refl _) ?_
      refine List.Sublist.append (List.Sublist.refl _) ?_
      exact (List.Sublist.append (prevDigestPart_sublist sm)
        (List.Sublist.refl _)).trans
        (List.sublist_append_right _ _)
  · intro i
    by_cases hc : sm.logIteratorCount = 0
    · rw [hd0 hc]
      simp [List.mem_append, List.mem_singleton, ← mem_prevDigestPart, hc]
    · rw [hd1 hc]
      simp [List.mem_append, List.mem_singleton, ← mem_prevDigestPart, hc]

@[simp] theorem setCleanedEpoch_states (slot epoch : Nat) (sm : SM) :
    (setCleanedEpoch slot epoch sm).states = sm.states := rfl

@[simp] theorem setCleanedEpoch_byState (slot epoch : Nat) (sm : SM) :
    (setCleanedEpoch slot epoch sm).segmentsByState = sm.segmentsByState := rfl

@[simp] theorem setCleanedEpoch_currentEpoch (slot epoch : Nat) (sm : SM) :
    (setCleanedEpoch slot epoch sm).currentEpoch = sm.currentEpoch := rfl

theorem setCleanedEpoch_segletsAt (slot epoch j : Nat) (sm : SM) :
    segletsAt (setCleanedEpoch slot epoch sm) j = segletsAt sm j := by
  unfold segletsAt setCleanedEpoch
  simp only
  by_cases hj : j = slot
  · subst hj
    rw [if_pos rfl]
    cases sm.segments j <;> rfl
  · rw [if_neg hj]

@[simp] theorem changeState_segletsAt (slot : Nat) (st : SegState) (sm : SM)
    (j : Nat) : segletsAt (changeState slot st sm) j = segletsAt sm j := by
  unfold segletsAt
  rw [changeState_segments]

theorem cleanLoop_currentEpoch (ep : Nat) (L : List Nat) (sm : SM) (acc : Nat) :
    (cleanLoop ep L sm acc).1.currentEpoch = sm.currentEpoch := by
  induction L generalizing sm acc with
  | nil => rfl
  | cons a L ih => rw [cleanLoop, ih, changeState_currentEpoch, setCleanedEpoch_currentEpoch]

theorem cleanLoop_sum (ep : Nat) (L : List Nat) (sm : SM) (acc : Nat) :
    (cleanLoop ep L sm acc).2 = acc + (L.map (segletsAt sm)).sum := by
  induction L generalizing sm acc with
  | nil => simp [cleanLoop]
  | cons a L ih =>
    rw [cleanLoop, ih]
    have hseg : ∀ j ∈ L, segletsAt (changeState a
        SegState.FREEABLE_PENDING_DIGEST_AND_REFERENCES
        (setCleanedEpoch a ep sm)) j = segletsAt sm j := by
      intro j _
      rw [changeState_segletsAt, setCleanedEpoch_segletsAt]
    rw [List.map_congr_left hseg]
    simp [List.sum_cons]
    omega

theorem cleanLoop_states_stable (ep : Nat) (L : List Nat) {sm : SM}
    {acc slot : Nat}
    (h : sm.states slot = some SegState.FREEABLE_PENDING_DIGEST_AND_REFERENCES) :
    (cleanLoop ep L sm acc).1.states slot =
      some SegState.FREEABLE_PENDING_DIGEST_AND_REFERENCES := by
  induction L generalizing sm acc with
  | nil => exact h
  | cons a L ih =>
    rw [cleanLoop]
    refine ih ?_
    rw [changeState_states_apply]
    split
    · rfl
    · exact h

theorem cleanLoop_states_mem (ep : Nat) {L : List Nat} {sm : SM}
    {acc slot : Nat} (hmem : slot ∈ L) :
    (cleanLoop ep L sm acc).1.states slot =
      some SegState.FREEABLE_PENDING_DIGEST_AND_REFERENCES := by
  induction L generalizing sm acc with
  | nil => cases hmem
  | cons a L ih =>
    rw [cleanLoop]
    rcases List.mem_cons.1 hmem with hsl | hsl
    · subst hsl
      refine cleanLoop_states_stable ep L ?_
      rw [changeState_states_apply]
      simp
    · exact ih hsl

theorem cleanLoop_states_not_mem (ep : Nat) {L : List Nat} {sm : SM}
    {acc slot : Nat} (h : slot ∉ L) :
    (cleanLoop ep L sm acc).1.states slot = sm.states slot := by
  induction L generalizing sm acc with
  | nil => rfl
  | cons a L ih =>
    simp only [List.mem_cons, not_or] at h
    rw [cleanLoop, ih h.2, changeState_states_apply, if_neg h.1,
      setCleanedEpoch_states]

theorem cleanLoop_cleanedEpoch_stable (ep : Nat) (L : List Nat) {sm : SM}
    {acc slot : Nat}
    (h : ∀ s, sm.segments slot = some s → s.cleanedEpoch = ep) :
    ∀ s, (cleanLoop ep L sm acc).1.segments slot = some s → s.cleanedEpoch = ep := by
  induction L generalizing sm acc with
  | nil => exact h
  | cons a L ih =>
    rw [cleanLoop]
    refine ih ?_
    intro s hs
    rw [changeState_segments] at hs
    unfold setCleanedEpoch at hs
    simp only at hs
    by_cases hj : slot = a
    · subst hj
      rw [if_pos rfl] at hs
      cases hu : sm.segments slot with
      | none => rw [hu] at hs; cases hs
      | some u =>
        rw [hu] at hs
        injection hs with hs
        rw [← hs]
    · rw [if_neg hj] at hs
      exact h s hs

theorem cleanLoop_cleanedEpoch_mem (ep : Nat) {L : List Nat} {sm : SM}
    {acc slot : Nat} (hmem : slot ∈ L) :
    ∀ s, (cleanLoop ep L sm acc).1.segments slot = some s →
      s.cleanedEpoch = ep := by
  induction L generalizing sm acc with
  | nil => cases hmem
  | cons a L ih =>
    rw [cleanLoop]
    rcases List.mem_cons.1 hmem with hsl | hsl
    · subst hsl
      refine cleanLoop_cleanedEpoch_stable ep L ?_
      intro s hs
      rw [changeState_segments] at hs
      unfold setCleanedEpoch at hs
      simp only [if_pos rfl] at hs
      cases hu : sm.segments slot with
      | none => rw [hu] at hs; cases hs
      | some u =>
        rw [hu] at hs
        injection hs with hs
        rw [← hs]
    · exact ih hsl

theorem drainCleaningInto_currentEpoch (L : List Nat) (sm : SM) (acc : Nat) :
    (drainCleaningInto L sm acc).1.currentEpoch = sm.currentEpoch := by
  induction L generalizing sm acc with
  | nil => rfl
  | cons a L ih => rw [drainCleaningInto, ih, changeState_currentEpoch]

theorem drainCleaningInto_segments (L : List Nat) (sm : SM) (acc : Nat) :
    (drainCleaningInto L sm acc).1.segments = sm.segments := by
  induction L generalizing sm acc with
  | nil => rfl
  | cons a L ih => rw [drainCleaningInto, ih, changeState_segments]

theorem drainCleaningInto_sum (L : List Nat) (sm : SM) (acc : Nat) :
    (drainCleaningInto L sm acc).2 = acc + (L.map (segletsAt sm)).sum := by
  induction L generalizing sm acc with
  | nil => simp [drainCleaningInto]
  | cons a L ih =>
    rw [drainCleaningInto, ih]
    have hseg : ∀ j ∈ L, segletsAt (changeState a
        SegState.CLEANABLE_PENDING_DIGEST sm) j = segletsAt sm j := by
      intro j _
      rw [changeState_segletsAt]
    rw [List.map_congr_left hseg]
    simp [List.sum_cons]
    omega

theorem drainCleaningInto_states_stable {L : List Nat} {sm : SM} {acc slot : Nat}
    (h : sm.states slot = some SegState.CLEANABLE_PENDING_DIGEST) :
    (drainCleaningInto L sm acc).1.states slot =
      some SegState.CLEANABLE_PENDING_DIGEST := by
  induction L generalizing sm acc with
  | nil => exact h
  | cons a L ih =>
    rw [drainCleaningInto]
    refine ih ?_
    rw [changeState_states_apply]
    split
    · rfl
    · exact h

theorem drainCleaningInto_states_mem {L : List Nat} {sm : SM} {acc slot : Nat}
    (hmem : slot ∈ L) :
    (drainCleaningInto L sm acc).1.states slot =
      some SegState.CLEANABLE_PENDING_DIGEST := by
  induction L generalizing sm acc with
  | nil => cases hmem
  | cons a L ih =>
    rw [drainCleaningInto]
    rcases List.mem_cons.1 hmem with hsl | hsl
    · subst hsl
      refine drainCleaningInto_states_stable ?_
      rw [changeState_states_apply]
      simp
    · exact ih hsl

/-- C2 (counterexample): with an active log iterator (`smIter.logIteratorCount
= 1`) the reclamation scan still frees the `FREEABLE_PENDING_REFERENCES`
segment in slot 0 — `freeUnreferencedSegments` never consults
`logIteratorCount`, so the claim's "no segment in FREEABLE_PENDING_REFERENCES
is freed by any operation for as long as the count stays positive" fails. -/
theorem iterator_free_counterexample :
    smIter.logIteratorCount = 1 ∧
    smIter.states 0 = some SegState.FREEABLE_PENDING_REFERENCES ∧
    (smIter.segments 0).isSome = true ∧
    (freeUnreferencedSegments smIter 1).segments 0 = none ∧
    (freeUnreferencedSegments smIter 1).states 0 = none ∧
    (freeUnreferencedSegments smIter 1).logIteratorCount = 1 :=
  ⟨rfl, rfl, rfl, rfl, rfl, rfl⟩

/-- C2 (amended): with an active log iterator, writing a digest leaves the
manager state entirely unchanged — in particular no state transitions out
of `CLEANABLE_PENDING_DIGEST` or `FREEABLE_PENDING_DIGEST_AND_REFERENCES`
happen at digest time.  (The scan of `FREEABLE_PENDING_REFERENCES` is *not*
suppressed by an active iterator; see the counterexample.) -/
theorem writeDigest_iterator_suppression (sm : SM) (nh : Nat) (ph : Option Nat)
    (h : 0 < sm.logIteratorCount) :
    (writeDigest sm nh ph).1 = sm ∧
    ∀ slot, (writeDigest sm nh ph).1.states slot = sm.states slot := by
  have h1 := (@writeDigest_iter sm nh ph (by omega)).1
  exact ⟨h1, fun slot => by rw [h1]⟩

/-- Witness for the amended C2 theorem at `smIter`. -/
theorem writeDigest_iterator_suppression_witness :
    0 < smIter.logIteratorCount ∧ (writeDigest smIter 0 none).1 = smIter :=
  ⟨by decide, (writeDigest_iterator_suppression smIter 0 none (by decide)).1⟩

/-- C5: the reclamation scan frees exactly the `FREEABLE_PENDING_REFERENCES`
segments whose `cleanedEpoch` precedes the earliest outstanding RPC epoch:
each such segment's slot and state are destroyed, the slot returns to the
free-slot pool, the id leaves the id-to-slot index and the slot leaves every
list; a segment whose `cleanedEpoch` is at or above the earliest epoch, and
every segment in any other state, is untouched. -/
theorem freeUnreferencedSegments_spec (sm : SM) (e : Nat) (hW : Wf sm) :
    (∀ slot ∈ sm.segmentsByState SegState.FREEABLE_PENDING_REFERENCES,
      ∀ s, sm.segments slot = some s →
        (s.cleanedEpoch < e →
          (freeUnreferencedSegments sm e).segments slot = none ∧
          (freeUnreferencedSegments sm e).states slot = none ∧
          slot ∈ (freeUnreferencedSegments sm e).freeSlots ∧
          (freeUnreferencedSegments sm e).idToSlotMap s.id = none ∧
          (∀ t, slot ∉ (freeUnreferencedSegments sm e).segmentsByState t) ∧
          slot ∉ (freeUnreferencedSegments sm e).allSegments) ∧
        (e ≤ s.cleanedEpoch →
          (freeUnreferencedSegments sm e).segments slot = sm.segments slot ∧
          (freeUnreferencedSegments sm e).states slot = sm.states slot)) ∧
    (∀ slot, slot ∉ sm.segmentsByState SegState.FREEABLE_PENDING_REFERENCES →
      (freeUnreferencedSegments sm e).segments slot = sm.segments slot ∧
      (freeUnreferencedSegments sm e).states slot = sm.states slot) := by
  constructor
  · intro slot hmem s hs
    constructor
    · intro hlt
      rw [freeUnref_eq_scan]
      exact scanFree_freed hW (wf_listOk hW _).1 (freeUnref_fprOk hW) hmem hs hlt
    · intro hge
      rw [freeUnref_eq_scan]
      exact scanFree_kept (wf_listOk hW _).1 hmem hs (by omega)
  · intro slot hmem
    exact ⟨freeUnref_segments_not_mem hmem, freeUnref_states_not_mem hmem⟩

/-- Witness for the C5 theorem at `smEx` with earliest epoch 1: slot 5
(cleaned at epoch 0) is freed, slot 1 (in `CLEANABLE`) is untouched. -/
theorem freeUnreferencedSegments_spec_witness :
    Wf smEx ∧
    (freeUnreferencedSegments smEx 1).segments 5 = none ∧
    5 ∈ (freeUnreferencedSegments smEx 1).freeSlots ∧
    (freeUnreferencedSegments smEx 1).idToSlotMap 5 = none ∧
    (freeUnreferencedSegments smEx 1).segments 1 = smEx.segments 1 := by
  have h := freeUnreferencedSegments_spec smEx 1 (by decide)
  have h5 := (h.1 5 (by decide) (mkSeg 5 5 false 0) rfl).1 (by decide)
  exact ⟨by decide, h5.1, h5.2.2.1, h5.2.2.2.1, (h.2 1 (by decide)).1⟩

/-- C8: admission decisions of `mayAlloc`, under the entry assertions that
neither outstanding count exceeds its cap: an emergency head is always
permitted; a survivor draw is permitted iff the survivor reserve is not
exhausted; a head draw is permitted iff the free count strictly exceeds the
total unallocated reserve. -/
theorem mayAlloc_spec (sm : SM)
    (h1 : sm.numEmergencyHeadsAlloced ≤ sm.numEmergencyHeads)
    (h2 : sm.numSurvivorSegmentsAlloced ≤ sm.numSurvivorSegments) :
    mayAlloc sm .ALLOC_EMERGENCY_HEAD = true ∧
    (mayAlloc sm .ALLOC_SURVIVOR = true ↔
      sm.numSurvivorSegmentsAlloced < sm.numSurvivorSegments) ∧
    (mayAlloc sm .ALLOC_HEAD = true ↔
      (sm.numEmergencyHeads - sm.numEmergencyHeadsAlloced) +
        (sm.numSurvivorSegments - sm.numSurvivorSegmentsAlloced) <
        sm.freeSegmentCount) := by
  refine ⟨rfl, ?_, ?_⟩
  · simp only [mayAlloc, decide_eq_true_eq]
    omega
  · simp only [mayAlloc, decide_eq_true_eq]

/-- Witness for the C8 theorem at `smEx` (caps 2/2, nothing outstanding,
5 free segments). -/
theorem mayAlloc_spec_witness :
    smEx.numEmergencyHeadsAlloced ≤ smEx.numEmergencyHeads ∧
    smEx.numSurvivorSegmentsAlloced ≤ smEx.numSurvivorSegments ∧
    mayAlloc smEx .ALLOC_EMERGENCY_HEAD = true ∧
    mayAlloc smEx .ALLOC_SURVIVOR = true ∧
    mayAlloc smEx .ALLOC_HEAD = true := by
  have h := mayAlloc_spec smEx (by decide) (by decide)
  exact ⟨by decide, by decide, h.1, h.2.1.2 (by decide), h.2.2.2 (by decide)⟩

/-- C10: freeing a non-emergency segment decrements
`numSurvivorSegmentsAlloced` exactly when that counter is positive (the
guard prevents underflow) and leaves the emergency-head counter alone;
freeing an emergency head decrements only `numEmergencyHeadsAlloced`. -/
theorem free_counters_spec (sm : SM) (slot : Nat) (s : LogSegment)
    (hs : sm.segments slot = some s) :
    (s.isEmergencyHead = false →
      (0 < sm.numSurvivorSegmentsAlloced →
        (free slot sm).numSurvivorSegmentsAlloced =
          sm.numSurvivorSegmentsAlloced - 1) ∧
      (sm.numSurvivorSegmentsAlloced = 0 →
        (free slot sm).numSurvivorSegmentsAlloced = 0) ∧
      (free slot sm).numEmergencyHeadsAlloced =
        sm.numEmergencyHeadsAlloced) ∧
    (s.isEmergencyHead = true →
      (free slot sm).numEmergencyHeadsAlloced =
        sm.numEmergencyHeadsAlloced - 1 ∧
      (free slot sm).numSurvivorSegmentsAlloced =
        sm.numSurvivorSegmentsAlloced) := by
  constructor
  · intro hf
    refine ⟨?_, ?_, ?_⟩
    · intro hpos
      rw [free_numSurvivorSegmentsAlloced hs, hf]
      simp [hpos]
    · intro hz
      rw [free_numSurvivorSegmentsAlloced hs, hf, hz]
      simp
    · rw [free_numEmergencyHeadsAlloced hs, hf]
      simp
  · intro ht
    constructor
    · rw [free_numEmergencyHeadsAlloced hs, ht]
      simp
    · rw [free_numSurvivorSegmentsAlloced hs, ht]
      simp

/-- Witness for the C10 theorem: freeing the non-emergency `CLEANABLE`
segment in slot 1 of `smEx` (no survivor draws outstanding) leaves both
counters at zero. -/
theorem free_counters_spec_witness :
    smEx.segments 1 = some (mkSeg 1 1 false 0) ∧
    (free 1 smEx).numSurvivorSegmentsAlloced = 0 ∧
    (free 1 smEx).numEmergencyHeadsAlloced = 0 := by
  have h := free_counters_spec smEx 1 (mkSeg 1 1 false 0) rfl
  refine ⟨rfl, (h.1 rfl).2.1 rfl, ?_⟩
  rw [(h.1 rfl).2.2]
  rfl

/-- C7: the bound check of `increaseSurvivorReserve` is computed in unsigned
arithmetic and underflows: on `smLowFree` (free count 1 below the
emergency-head reserve 2 — reachable by constructing the manager with two
segments and calling `allocHead(mustNotFail = true)` on the empty log) the
call `increaseSurvivorReserve 1` should be refused (1 > 1 - 2 in the
intended integer arithmetic) but the wrapped subtraction makes the check
pass: the call returns `true`, sets the survivor reserve, and leaves the
free count strictly below the total unallocated reserve, falsifying the
`freeSegmentCount >= totalReserved` assertion `mayAlloc` relies on. -/
theorem increaseSurvivorReserve_underflow_eval :
    smLowFree.freeSegmentCount < smLowFree.numEmergencyHeads ∧
    ¬ (1 + smLowFree.numEmergencyHeads ≤ smLowFree.freeSegmentCount) ∧
    (increaseSurvivorReserve smLowFree 1).2 = true ∧
    (increaseSurvivorReserve smLowFree 1).1.numSurvivorSegments = 1 ∧
    (increaseSurvivorReserve smLowFree 1).1.freeSegmentCount <
      ((increaseSurvivorReserve smLowFree 1).1.numEmergencyHeads -
        (increaseSurvivorReserve smLowFree 1).1.numEmergencyHeadsAlloced) +
      ((increaseSurvivorReserve smLowFree 1).1.numSurvivorSegments -
        (increaseSurvivorReserve smLowFree 1).1.numSurvivorSegmentsAlloced) := by
  refine ⟨by decide, by decide, ?_, ?_, ?_⟩ <;> decide

/-- C3: when the initial `ALLOC_HEAD` admission fails (after the scan), an
emergency head is drawn exactly when `mustNotFail` is set or some segment
sits in `FREEABLE_PENDING_DIGEST_AND_REFERENCES`; otherwise `allocHead`
returns `none` — an out-of-memory outcome whose only state change is the
reclamation scan, not an error. -/
theorem allocHead_emergency_decision (sm : SM) (e : Nat) (mnf : Bool)
    (hW : Wf sm) (hfree : sm.freeSlots ≠ [])
    (hfail : mayAlloc (freeUnreferencedSegments sm e) .ALLOC_HEAD = false) :
    ((mnf = true ∨ sm.segmentsByState
        SegState.FREEABLE_PENDING_DIGEST_AND_REFERENCES ≠ []) →
      ∃ nh d, (allocHead sm e mnf).2 = some (nh, d) ∧
        isEmergencyAt (allocHead sm e mnf).1 nh = true) ∧
    ((mnf = false ∧ sm.segmentsByState
        SegState.FREEABLE_PENDING_DIGEST_AND_REFERENCES = []) →
      allocHead sm e mnf = (freeUnreferencedSegments sm e, none)) := by
  have h2p : alloc sm e .ALLOC_HEAD = (freeUnreferencedSegments sm e, none) :=
    alloc_fail hfail
  have h2 : (alloc sm e .ALLOC_HEAD).2 = none := by rw [h2p]
  have hFP : (alloc sm e .ALLOC_HEAD).1.segmentsByState
      SegState.FREEABLE_PENDING_DIGEST_AND_REFERENCES =
      sm.segmentsByState SegState.FREEABLE_PENDING_DIGEST_AND_REFERENCES := by
    rw [h2p]
    exact freeUnref_byState_ne e hW (by decide)
  constructor
  · intro hcond
    have hcondb : (mnf ||
        !((alloc sm e .ALLOC_HEAD).1.segmentsByState
            SegState.FREEABLE_PENDING_DIGEST_AND_REFERENCES).isEmpty) = true := by
      rcases hcond with hm | hf
      · rw [hm]
        rfl
      · have hie : ((alloc sm e .ALLOC_HEAD).1.segmentsByState
            SegState.FREEABLE_PENDING_DIGEST_AND_REFERENCES).isEmpty = false := by
          rw [hFP]
          cases hE : (sm.segmentsByState
              SegState.FREEABLE_PENDING_DIGEST_AND_REFERENCES).isEmpty
          · rfl
          · exact absurd (List.isEmpty_iff.1 hE) hf
        rw [hie]
        simp
    have hmE : mayAlloc (freeUnreferencedSegments (alloc sm e .ALLOC_HEAD).1 e)
        .ALLOC_EMERGENCY_HEAD = true := rfl
    have hfs2 : (freeUnreferencedSegments (alloc sm e .ALLOC_HEAD).1 e).freeSlots
        ≠ [] := by
      obtain ⟨l2, hl2⟩ := freeUnref_freeSlots_suffix (alloc sm e .ALLOC_HEAD).1 e
      rw [h2p] at hl2
      obtain ⟨l1, hl1⟩ := freeUnref_freeSlots_suffix sm e
      rw [h2p]
      rw [hl2, hl1, List.append_assoc]
      intro hnil
      exact hfree (List.append_eq_nil.1 hnil).1
    have hlast : ∃ a, (freeUnreferencedSegments (alloc sm e .ALLOC_HEAD).1
        e).freeSlots.getLast? = some a := by
      cases hg : (freeUnreferencedSegments (alloc sm e .ALLOC_HEAD).1
          e).freeSlots.getLast? with
      | none => exact absurd (List.getLast?_eq_none_iff.1 hg) hfs2
      | some a => exact ⟨a, rfl⟩
    obtain ⟨a, hlast⟩ := hlast
    have h3 : (alloc (alloc sm e .ALLOC_HEAD).1 e .ALLOC_EMERGENCY_HEAD).2 =
        some a := (alloc_succ hmE hlast).1
    have heq : allocHead sm e mnf = allocHeadFinish
        (alloc (alloc sm e .ALLOC_HEAD).1 e .ALLOC_EMERGENCY_HEAD).1
        (getHeadSegment sm) a := by
      simp [allocHead, h2, hcondb, h3]
    have hpa := @postAlloc_alloc (alloc sm e .ALLOC_HEAD).1 e
      .ALLOC_EMERGENCY_HEAD a
      (by rw [h2p]; exact freeUnref_Wf e hW) (by decide) h3
    rw [h2p] at hpa heq
    obtain ⟨⟨d, hd, -, -⟩, hem⟩ := allocHeadFinish_main hW (postAlloc_trans hW hpa)
    refine ⟨a, d, ?_, ?_⟩
    · rw [heq]
      exact hd
    · rw [heq]
      exact hem
  · rintro ⟨hmn, hfpd⟩
    subst hmn
    have hcondb : (false ||
        !((alloc sm e .ALLOC_HEAD).1.segmentsByState
            SegState.FREEABLE_PENDING_DIGEST_AND_REFERENCES).isEmpty) = false := by
      rw [hFP, hfpd]
      rfl
    have hh : allocHead sm e false = ((alloc sm e .ALLOC_HEAD).1, none) := by
      simp [allocHead, h2, hcondb]
    rw [hh, h2p]

/-- Witness for the C3 theorem at `smEm` (head admission fails with 2 free
segments against a reserve of 2; slot 1 sits in
`FREEABLE_PENDING_DIGEST_AND_REFERENCES`, so the emergency path fires even
with `mustNotFail = false`). -/
theorem allocHead_emergency_decision_witness :
    Wf smEm ∧ smEm.freeSlots ≠ [] ∧
    mayAlloc (freeUnreferencedSegments smEm 1) .ALLOC_HEAD = false ∧
    ∃ nh d, (allocHead smEm 1 false).2 = some (nh, d) ∧
      isEmergencyAt (allocHead smEm 1 false).1 nh = true := by
  refine ⟨by decide, by decide, by decide, ?_⟩
  exact (allocHead_emergency_decision smEm 1 false (by decide) (by decide)
    (by decide)).1 (Or.inr (by decide))

/-- C6: head uniqueness across `allocHead`.  Starting from a state with at
most one `HEAD` segment, a successful `allocHead` ends with exactly the new
segment in `HEAD` — the previous head (when there was one) having been freed
if it was an emergency head and moved to `NEWLY_CLEANABLE` otherwise — and a
failed `allocHead` leaves the `HEAD` list unchanged, so at most one segment
is ever in `HEAD`. -/
theorem allocHead_single_head (sm : SM) (e : Nat) (mnf : Bool) (hW : Wf sm)
    (hHead : sm.segmentsByState SegState.HEAD = [] ∨
      ∃ p, sm.segmentsByState SegState.HEAD = [p]) :
    (∀ nh d, (allocHead sm e mnf).2 = some (nh, d) →
      (allocHead sm e mnf).1.segmentsByState SegState.HEAD = [nh] ∧
      (∀ p, getHeadSegment sm = some p →
        (isEmergencyAt sm p = true →
          (allocHead sm e mnf).1.segments p = none) ∧
        (isEmergencyAt sm p = false →
          (allocHead sm e mnf).1.states p =
            some SegState.NEWLY_CLEANABLE))) ∧
    ((allocHead sm e mnf).2 = none →
      (allocHead sm e mnf).1.segmentsByState SegState.HEAD =
        sm.segmentsByState SegState.HEAD) := by
  constructor
  · intro nh d hsucc
    obtain ⟨A, emer, hPA, heq⟩ := allocHead_succ_path hW hsucc
    have hfin := allocHeadFinish_head hW hPA hHead
    rw [heq]
    exact hfin
  · intro hnone
    rcases allocHead_none_path hnone with hres | hres
    · rw [hres]
      exact freeUnref_byState_ne e hW (by decide)
    · rw [hres]
      rw [freeUnref_byState_ne e (freeUnref_Wf e hW) (by decide)]
      exact freeUnref_byState_ne e hW (by decide)

/-- Witness for the C6 theorem at `smEx`: the new head lands in slot 5, the
`HEAD` list becomes `[5]`, and the previous (non-emergency) head in slot 0
moves to `NEWLY_CLEANABLE`. -/
theorem allocHead_single_head_witness :
    Wf smEx ∧ smEx.segmentsByState SegState.HEAD = [0] ∧
    (allocHead smEx 1 false).2 = some (5, [1, 2, 3, 0, 6]) ∧
    (allocHead smEx 1 false).1.segmentsByState SegState.HEAD = [5] ∧
    (allocHead smEx 1 false).1.states 0 = some SegState.NEWLY_CLEANABLE := by
  have h := (allocHead_single_head smEx 1 false (by decide)
    (Or.inr ⟨0, rfl⟩)).1 5 [1, 2, 3, 0, 6] (by decide)
  exact ⟨by decide, rfl, by decide, h.1, (h.2 0 rfl).2 rfl⟩

/-- C9: a failed `allocHead(false)` is not a no-op: the resulting state is
exactly the post-scan state, so every `FREEABLE_PENDING_REFERENCES` segment
cleaned before the earliest outstanding epoch has been freed; but the head
segment itself is untouched, the `HEAD` list, the next segment id and the
iterator count are unchanged, and no slot that was empty is now occupied. -/
theorem allocHead_fail_frame (sm : SM) (e : Nat) (hW : Wf sm)
    (hFPDAR : sm.segmentsByState
      SegState.FREEABLE_PENDING_DIGEST_AND_REFERENCES = [])
    (hnone : (allocHead sm e false).2 = none) :
    (allocHead sm e false).1 = freeUnreferencedSegments sm e ∧
    (∀ slot ∈ sm.segmentsByState SegState.FREEABLE_PENDING_REFERENCES,
      ∀ s, sm.segments slot = some s → s.cleanedEpoch < e →
        (allocHead sm e false).1.segments slot = none) ∧
    (allocHead sm e false).1.segmentsByState SegState.HEAD =
      sm.segmentsByState SegState.HEAD ∧
    (∀ p, getHeadSegment sm = some p →
      (allocHead sm e false).1.segments p = sm.segments p) ∧
    (allocHead sm e false).1.nextSegmentId = sm.nextSegmentId ∧
    (allocHead sm e false).1.logIteratorCount = sm.logIteratorCount ∧
    (∀ slot, sm.segments slot = none →
      (allocHead sm e false).1.segments slot = none) := by
  have h2 : (alloc sm e .ALLOC_HEAD).2 = none := by
    cases h2 : (alloc sm e .ALLOC_HEAD).2 with
    | none => rfl
    | some nh0 =>
      exfalso
      have heq : allocHead sm e false =
          allocHeadFinish (alloc sm e .ALLOC_HEAD).1 (getHeadSegment sm) nh0 := by
        simp [allocHead, h2]
      rw [heq, allocHeadFinish_snd] at hnone
      cases hnone
  have har1 := alloc_none_fst h2
  have hcondb : (false ||
      !((alloc sm e .ALLOC_HEAD).1.segmentsByState
          SegState.FREEABLE_PENDING_DIGEST_AND_REFERENCES).isEmpty) = false := by
    rw [har1, freeUnref_byState_ne e hW (by decide), hFPDAR]
    rfl
  have hres : (allocHead sm e false).1 = freeUnreferencedSegments sm e := by
    have hh : allocHead sm e false = ((alloc sm e .ALLOC_HEAD).1, none) := by
      simp [allocHead, h2, hcondb]
    rw [hh]
    exact har1
  have hHeadmem : ∀ p, getHeadSegment sm = some p →
      p ∉ sm.segmentsByState SegState.FREEABLE_PENDING_REFERENCES := by
    intro p hp hmem
    have hpH : p ∈ sm.segmentsByState SegState.HEAD :=
      List.mem_of_mem_head? hp
    have h1 := ((wf_listOk hW SegState.HEAD).2 p hpH).2
    have h2 := ((wf_listOk hW SegState.FREEABLE_PENDING_REFERENCES).2 p hmem).2
    rw [h1] at h2
    simp at h2
  refine ⟨hres, ?_, ?_, ?_, ?_, ?_, ?_⟩
  · intro slot hmem s hs hlt
    rw [hres, freeUnref_eq_scan]
    exact (scanFree_freed hW (wf_listOk hW _).1 (freeUnref_fprOk hW)
      hmem hs hlt).1
  · rw [hres]
    exact freeUnref_byState_ne e hW (by decide)
  · intro p hp
    rw [hres]
    exact freeUnref_segments_not_mem (hHeadmem p hp)
  · rw [hres]
    simp
  · rw [hres]
    simp
  · intro slot hs
    rw [hres, freeUnref_eq_scan]
    exact scanFree_segments_none hs

/-- Witness for the C9 theorem at `smOOM` with earliest epoch 1: the head
allocation fails, yet the `FREEABLE_PENDING_REFERENCES` segment in slot 1
(cleaned at epoch 0) has been freed; head, ids and iterator count are
unchanged. -/
theorem allocHead_fail_frame_witness :
    Wf smOOM ∧
    smOOM.segmentsByState SegState.FREEABLE_PENDING_DIGEST_AND_REFERENCES
      = [] ∧
    (allocHead smOOM 1 false).2 = none ∧
    (allocHead smOOM 1 false).1.segments 1 = none ∧
    (allocHead smOOM 1 false).1.segmentsByState SegState.HEAD =
      smOOM.segmentsByState SegState.HEAD ∧
    (allocHead smOOM 1 false).1.segments 0 = smOOM.segments 0 ∧
    (allocHead smOOM 1 false).1.nextSegmentId = smOOM.nextSegmentId := by
  have h := allocHead_fail_frame smOOM 1 (by decide) rfl (by decide)
  refine ⟨by decide, rfl, by decide, ?_, h.2.2.1, h.2.2.2.1 0 rfl, h.2.2.2.2.1⟩
  exact h.2.1 1 (by decide) (mkSeg 1 1 false 0) rfl (by decide)

/-- Witness for the C1 theorem at `smEx`: `allocHead` reuses the slot freed
by the scan, issues id 6 and writes the digest `[1, 2, 3, 0, 6]` — the
`CLEANABLE` id, the `NEWLY_CLEANABLE` id, the `CLEANABLE_PENDING_DIGEST` id
(no iterator), the previous head's id and the fresh id, with no duplicates. -/
theorem allocHead_digest_spec_witness :
    Wf smEx ∧ idsOk smEx ∧
    (allocHead smEx 1 false).2 = some (5, [1, 2, 3, 0, 6]) ∧
    ([1, 2, 3, 0, 6] : List Nat).Nodup := by
  have h := allocHead_digest_spec smEx 1 false 5 [1, 2, 3, 0, 6]
    (by decide) (by decide) (by decide)
  exact ⟨by decide, by decide, by decide, h.1⟩

/-- C4: `cleaningComplete` moves every `CLEANING_INTO` segment to
`CLEANABLE_PENDING_DIGEST`, increments the global RPC epoch recording the
pre-increment value, stamps every cleaned segment with that epoch and moves
it to `FREEABLE_PENDING_DIGEST_AND_REFERENCES`, tallies `segletsUsed` over
the drained survivors and `segletsFreed` over the cleaned list, and asserts
`segletsUsed ≤ segletsFreed`. -/
theorem cleaningComplete_spec (sm : SM) (clean : List Nat)
    (hdisj : ∀ slot ∈ clean,
      slot ∉ sm.segmentsByState SegState.CLEANING_INTO) :
    (∀ slot ∈ sm.segmentsByState SegState.CLEANING_INTO,
      (cleaningComplete sm clean).sm.states slot =
        some SegState.CLEANABLE_PENDING_DIGEST) ∧
    (cleaningComplete sm clean).epoch = sm.currentEpoch ∧
    (cleaningComplete sm clean).sm.currentEpoch = sm.currentEpoch + 1 ∧
    (∀ slot ∈ clean,
      (cleaningComplete sm clean).sm.states slot =
        some SegState.FREEABLE_PENDING_DIGEST_AND_REFERENCES ∧
      ∀ s, (cleaningComplete sm clean).sm.segments slot = some s →
        s.cleanedEpoch = sm.currentEpoch) ∧
    (cleaningComplete sm clean).segletsUsed =
      ((sm.segmentsByState SegState.CLEANING_INTO).map (segletsAt sm)).sum ∧
    (cleaningComplete sm clean).segletsFreed =
      (clean.map (segletsAt sm)).sum ∧
    ((cleaningComplete sm clean).assertNetNonLoss = true ↔
      (cleaningComplete sm clean).segletsUsed ≤
        (cleaningComplete sm clean).segletsFreed) := by
  simp only [cleaningComplete]
  have hdseg := drainCleaningInto_segments
    (sm.segmentsByState SegState.CLEANING_INTO) sm 0
  have hdce := drainCleaningInto_currentEpoch
    (sm.segmentsByState SegState.CLEANING_INTO) sm 0
  refine ⟨?_, hdce, ?_, ?_, ?_, ?_, ?_⟩
  · intro slot hmem
    have hnc : slot ∉ clean := fun hc => hdisj slot hc hmem
    rw [cleanLoop_states_not_mem _ hnc]
    exact drainCleaningInto_states_mem hmem
  · rw [cleanLoop_currentEpoch]
    show (drainCleaningInto (sm.segmentsByState SegState.CLEANING_INTO) sm
      0).1.currentEpoch + 1 = sm.currentEpoch + 1
    rw [hdce]
  · intro slot hmem
    constructor
    · exact cleanLoop_states_mem _ hmem
    · intro s hs
      rw [← hdce]
      exact cleanLoop_cleanedEpoch_mem _ hmem s hs
  · rw [drainCleaningInto_sum]
    simp
  · rw [cleanLoop_sum]
    have hseg : ∀ j ∈ clean, segletsAt { (drainCleaningInto
        (sm.segmentsByState SegState.CLEANING_INTO) sm 0).1 with
        currentEpoch := (drainCleaningInto
          (sm.segmentsByState SegState.CLEANING_INTO) sm
            0).1.currentEpoch + 1 } j = segletsAt sm j := by
      intro j _
      unfold segletsAt
      show (match (drainCleaningInto (sm.segmentsByState
          SegState.CLEANING_INTO) sm 0).1.segments j with
        | some s => s.segletsAllocated
        | none => 0) = _
      rw [hdseg]
    rw [List.map_congr_left hseg]
    simp
  · exact decide_eq_true_iff

/-- Witness for the C4 theorem at `smEx` with `clean = [1]`: nothing is in
`CLEANING_INTO` (`segletsUsed = 0`), the epoch 3 is recorded and bumped to 4,
and slot 1 moves to `FREEABLE_PENDING_DIGEST_AND_REFERENCES` stamped with
epoch 3, freeing its 10 seglets. -/
theorem cleaningComplete_spec_witness :
    (cleaningComplete smEx [1]).epoch = 3 ∧
    (cleaningComplete smEx [1]).sm.currentEpoch = 4 ∧
    (cleaningComplete smEx [1]).sm.states 1 =
      some SegState.FREEABLE_PENDING_DIGEST_AND_REFERENCES ∧
    (cleaningComplete smEx [1]).segletsUsed = 0 ∧
    (cleaningComplete smEx [1]).segletsFreed = 10 ∧
    (cleaningComplete smEx [1]).assertNetNonLoss = true := by
  have h := cleaningComplete_spec smEx [1] (by decide)
  refine ⟨?_, ?_, (h.2.2.2.1 1 (by decide)).1, ?_, ?_, ?_⟩
  · rw [h.2.1]
    decide
  · rw [h.2.2.1]
    decide
  · rw [h.2.2.2.2.1]
    decide
  · rw [h.2.2.2.2.2.1]
    decide
  · refine h.2.2.2.2.2.2.2 ?_
    rw [h.2.2.2.2.1, h.2.2.2.2.2.1]
    decide

end RAMCloud
